import Mathlib

/-!
Verification of the conversion engine of the anki-ajpc-yomitran add-on.

The development shallowly embeds the conversion logic of `src/conversion.py`
(namespace `Conversion`) and `src/modules/_yomitran_conversion.py`
(namespace `Modules`), together with the re-entrancy guard of
`src/__init__.py`.  Python strings are modelled by Lean `String`
(operating on `String.data` character lists); Python regular expressions
and `str` methods used by the code are modelled by explicit character-list
scanners below, restricted to ASCII where Python is Unicode-aware
(`str.lower`, `\s`, `\w`, `\d`); `html.unescape` is modelled for the basic
named and numeric entities.  The host note store (`mw.col`) is modelled by
an explicit `Collection` value that the driver threads through; host UI
calls (tooltips, progress bar, logging) have no effect on the store or the
results and are omitted.  The external romanizer (`to_hepburn`, backed by
the optional pykakasi dependency) is modelled as a function parameter
`hep`; no theorem below depends on its behaviour.
-/

/-! ## Character and string primitives (models of Python `str` and `re`) -/

/-- ASCII whitespace, the ASCII fragment of Python `\s` and `str.strip`. -/
def isWs (c : Char) : Bool :=
  c = ' ' ∨ c = '\t' ∨ c = '\n' ∨ c = '\r' ∨ c = '\x0b' ∨ c = '\x0c'

/-- ASCII lowercase conversion, the ASCII fragment of Python `str.lower`. -/
def lowerChar (c : Char) : Char :=
  if 65 ≤ c.toNat ∧ c.toNat ≤ 90 then Char.ofNat (c.toNat + 32) else c

def lowerStr (s : String) : String := ⟨s.data.map lowerChar⟩

/-- Python `str.strip()` on a character list. -/
def trimList (l : List Char) : List Char :=
  ((l.dropWhile isWs).reverse.dropWhile isWs).reverse

def trimStr (s : String) : String := ⟨trimList s.data⟩

/-- Is `pat` a leading segment of `l`? (used to model `str.startswith`). -/
def prefCh : List Char → List Char → Bool
  | [], _ => true
  | _ :: _, [] => false
  | a :: as, b :: bs => a = b && prefCh as bs

/-- Does `pat` occur inside `l`? (used to model Python `in` on strings). -/
def occursIn (pat : List Char) : List Char → Bool
  | [] => prefCh pat []
  | c :: rest => prefCh pat (c :: rest) || occursIn pat rest

/-- Python `v in hay` for strings. -/
def strContains (hay v : String) : Bool := occursIn v.data hay.data

def strStartsWith (s pat : String) : Bool := prefCh pat.data s.data

/-- One fuel-measured pass of Python `str.replace(pat, repl)`:
leftmost, non-overlapping. -/
def replGo (pat repl : List Char) : Nat → List Char → List Char
  | 0, s => s
  | _ + 1, [] => []
  | fuel + 1, c :: rest =>
    if prefCh pat (c :: rest) then
      repl ++ replGo pat repl fuel ((c :: rest).drop pat.length)
    else c :: replGo pat repl fuel rest

/-- Python `s.replace(pat, repl)`.  An empty `pat` is treated as the
identity, which agrees with Python exactly when `repl` is empty — the only
way the code can reach that case (`drop` entries are used with `repl = ""`). -/
def replaceStr (s pat repl : String) : String :=
  if pat = "" then s else ⟨replGo pat.data repl.data s.data.length s.data⟩

-- Python `re.split` on a character-class-plus pattern: split on maximal
-- runs of delimiter characters.
mutual
def splitRunsTok (delims : List Char) (cur : List Char) : List Char → List (List Char)
  | [] => [cur.reverse]
  | c :: rest =>
    if c ∈ delims then cur.reverse :: splitRunsSkip delims rest
    else splitRunsTok delims (c :: cur) rest
def splitRunsSkip (delims : List Char) : List Char → List (List Char)
  | [] => [[]]
  | c :: rest =>
    if c ∈ delims then splitRunsSkip delims rest
    else splitRunsTok delims [c] rest
end

def splitRuns (delims : List Char) (s : String) : List String :=
  (splitRunsTok delims [] s.data).map (fun l => ⟨l⟩)

-- Python `re.sub(class+, r, ...)`: collapse maximal runs of characters
-- satisfying `p` into the single character `r`.
mutual
def subRunsTok (p : Char → Bool) (r : Char) : List Char → List Char
  | [] => []
  | c :: rest => if p c then r :: subRunsSkip p r rest else c :: subRunsTok p r rest
def subRunsSkip (p : Char → Bool) (r : Char) : List Char → List Char
  | [] => []
  | c :: rest => if p c then subRunsSkip p r rest else c :: subRunsTok p r rest
end

/-- The tail of `l` after the first colon (Python `s.split(":", 1)[1]`;
the code only applies it to keys already checked to contain a colon). -/
def afterColonCh : List Char → List Char
  | [] => []
  | c :: rest => if c = ':' then rest else afterColonCh rest

def strAfterColon (s : String) : String := ⟨afterColonCh s.data⟩

/-- Strict lexicographic comparison by code point, the order Python uses
to compare strings (`sorted`). -/
def lexLt : List Char → List Char → Bool
  | [], [] => false
  | [], _ :: _ => true
  | _ :: _, [] => false
  | a :: as, b :: bs =>
    if a.toNat < b.toNat then true
    else if b.toNat < a.toNat then false
    else lexLt as bs

def strLt (s t : String) : Bool := lexLt s.data t.data

/-- Insert into a strictly sorted list, skipping duplicates. -/
def insertTag (s : String) : List String → List String
  | [] => [s]
  | t :: rest =>
    if strLt s t then s :: t :: rest
    else if s = t then t :: rest
    else t :: insertTag s rest

/-- Model of Python `sorted(set-like list)`: a strictly sorted,
duplicate-free list of the elements. -/
def sortDedup (l : List String) : List String := l.foldr insertTag []

/-- Model of `set.add` on a set represented as a duplicate-free list in
insertion order. -/
def setAdd (l : List String) (s : String) : List String :=
  if s ∈ l then l else l ++ [s]

/-- Python-dict style insertion-ordered update (`d[k] = v`). -/
def setAssoc : List (String × String) → String → String → List (String × String)
  | [], k, v => [(k, v)]
  | (k₂, v₂) :: rest, k, v =>
    if k₂ = k then (k, v) :: rest else (k₂, v₂) :: setAssoc rest k v

/-- Python `a or b` on Python strings (empty string is falsy). -/
def orD (a b : String) : String := if a = "" then b else a

/-- Last-binding lookup: models `{str(v.get("id")): v for v in ...}.get(k)`
where later duplicate keys overwrite earlier ones. -/
def lookupLast {α : Type} (k : String) (l : List (String × α)) : Option α :=
  l.foldl (fun acc p => if p.1 = k then some p.2 else acc) none

def isAsciiDigit (c : Char) : Bool := 48 ≤ c.toNat ∧ c.toNat ≤ 57

/-- First maximal digit run, modelling `re.search(r"\d+", s)` (ASCII). -/
def firstDigitRun : List Char → Option (List Char)
  | [] => none
  | c :: rest =>
    if isAsciiDigit c then some (c :: rest.takeWhile isAsciiDigit)
    else firstDigitRun rest

/-- First character in `1`-`5`, modelling `re.search(r"([1-5])", s)`. -/
def firstDigit15 : List Char → Option Char
  | [] => none
  | c :: rest => if 49 ≤ c.toNat ∧ c.toNat ≤ 53 then some c else firstDigit15 rest

/-! ## Models of the HTML-normalisation regular expressions -/

def isAsciiAlnum (c : Char) : Bool :=
  (48 ≤ c.toNat ∧ c.toNat ≤ 57) ∨ (65 ≤ c.toNat ∧ c.toNat ≤ 90) ∨
    (97 ≤ c.toNat ∧ c.toNat ≤ 122)

/-- Python `\w` (ASCII fragment): alphanumeric or underscore. -/
def isWordChar (c : Char) : Bool := isAsciiAlnum c ∨ c = '_'

/-- Case-insensitive literal match: the rest of `l` after a leading
case-insensitive occurrence of `pat`. -/
def ciPref (pat : List Char) : List Char → Option (List Char)
  | l =>
    match pat, l with
    | [], rest => some rest
    | _ :: _, [] => none
    | p :: ps, c :: cs => if lowerChar c = lowerChar p then ciPref ps cs else none

/-- The rest of `l` after a leading match of `(?is)<\s*br\s*/?\s*>`. -/
def matchBrTag : List Char → Option (List Char)
  | '<' :: r₁ =>
    match ciPref ['b', 'r'] (r₁.dropWhile isWs) with
    | none => none
    | some r₂ =>
      let r₃ := r₂.dropWhile isWs
      let r₄ := match r₃ with
        | '/' :: r => r.dropWhile isWs
        | _ => r₃
      match r₄ with
      | '>' :: r₅ => some r₅
      | _ => none
  | _ => none

def replBrGo : Nat → List Char → List Char
  | 0, l => l
  | _ + 1, [] => []
  | fuel + 1, c :: rest =>
    match matchBrTag (c :: rest) with
    | some r => '\n' :: replBrGo fuel r
    | none => c :: replBrGo fuel rest

/-- Model of `re.sub(r"(?is)<\s*br\s*/?\s*>", "\n", ...)`. -/
def replBrTags (l : List Char) : List Char := replBrGo l.length l

/-- The rest of `l` after a leading match of
`(?is)</\s*(li|p|div|tr|ul|ol)\s*>`. -/
def matchCloseTag : List Char → Option (List Char)
  | '<' :: '/' :: r₁ =>
    let r₂ := r₁.dropWhile isWs
    let names : List (List Char) := [['l', 'i'], ['p'], ['d', 'i', 'v'], ['t', 'r'], ['u', 'l'], ['o', 'l']]
    let tryName := fun (nm : List Char) =>
      match ciPref nm r₂ with
      | none => none
      | some r₃ =>
        match r₃.dropWhile isWs with
        | '>' :: r₄ => some r₄
        | _ => none
    names.firstM tryName
  | _ => none

def replCloseGo : Nat → List Char → List Char
  | 0, l => l
  | _ + 1, [] => []
  | fuel + 1, c :: rest =>
    match matchCloseTag (c :: rest) with
    | some r => '\n' :: replCloseGo fuel r
    | none => c :: replCloseGo fuel rest

def replCloseTags (l : List Char) : List Char := replCloseGo l.length l

/-- The rest of `l` after a leading match of `<[^>]+>` (`l` must start
just after the `<`). -/
def afterTagCloseInner : List Char → Option (List Char)
  | [] => none
  | c :: r => if c = '>' then some r else afterTagCloseInner r

def afterTagClose : List Char → Option (List Char)
  | [] => none
  | c :: r => if c = '>' then none else afterTagCloseInner r

def stripTagsGo : Nat → List Char → List Char
  | 0, l => l
  | _ + 1, [] => []
  | fuel + 1, c :: rest =>
    if c = '<' then
      match afterTagClose rest with
      | some r => stripTagsGo fuel r
      | none => c :: stripTagsGo fuel rest
    else c :: stripTagsGo fuel rest

/-- Model of `re.sub(r"(?is)<[^>]+>", "", ...)`. -/
def stripAllTags (l : List Char) : List Char := stripTagsGo l.length l

def hexVal (c : Char) : Option Nat :=
  if 48 ≤ c.toNat ∧ c.toNat ≤ 57 then some (c.toNat - 48)
  else if 97 ≤ c.toNat ∧ c.toNat ≤ 102 then some (c.toNat - 87)
  else if 65 ≤ c.toNat ∧ c.toNat ≤ 70 then some (c.toNat - 55)
  else none

def decodeDigits (base : Nat) (digits : List Char) : Option Nat :=
  digits.foldl (fun acc c =>
    match acc, hexVal c with
    | some n, some d => if d < base then some (n * base + d) else none
    | _, _ => none) (some 0)

/-- Decode one `&...;` entity at the head of `l` (which starts just after
the ampersand): the decoded character and the rest.  Models the basic
named and numeric entities of Python `html.unescape`; unknown entities are
left untouched (as Python does). -/
def decodeEntity (l : List Char) : Option (Char × List Char) :=
  match ciPref ['a', 'm', 'p', ';'] l with
  | some r => some ('&', r)
  | none =>
  match ciPref ['l', 't', ';'] l with
  | some r => some ('<', r)
  | none =>
  match ciPref ['g', 't', ';'] l with
  | some r => some ('>', r)
  | none =>
  match ciPref ['q', 'u', 'o', 't', ';'] l with
  | some r => some ('"', r)
  | none =>
  match ciPref ['a', 'p', 'o', 's', ';'] l with
  | some r => some ('\'', r)
  | none =>
  match ciPref ['n', 'b', 's', 'p', ';'] l with
  | some r => some ('\xa0', r)
  | none =>
  match l with
  | '#' :: rest =>
    let (base, digits, rest₂) :=
      match rest with
      | 'x' :: r => (16, r.takeWhile (fun c => (hexVal c).isSome), r.dropWhile (fun c => (hexVal c).isSome))
      | 'X' :: r => (16, r.takeWhile (fun c => (hexVal c).isSome), r.dropWhile (fun c => (hexVal c).isSome))
      | r => (10, r.takeWhile isAsciiDigit, r.dropWhile isAsciiDigit)
    match rest₂ with
    | ';' :: rest₃ =>
      if digits = [] then none
      else
        match decodeDigits base digits with
        | some n => some (if n.isValidChar then Char.ofNat n else '�', rest₃)
        | none => none
    | _ => none
  | _ => none

def htmlUnescapeGo : Nat → List Char → List Char
  | 0, l => l
  | _ + 1, [] => []
  | fuel + 1, c :: rest =>
    if c = '&' then
      match decodeEntity rest with
      | some (d, r) => d :: htmlUnescapeGo fuel r
      | none => c :: htmlUnescapeGo fuel rest
    else c :: htmlUnescapeGo fuel rest

/-- Model of Python `html.unescape` (basic entities). -/
def htmlUnescape (l : List Char) : List Char := htmlUnescapeGo l.length l

-- Python `str.splitlines` restricted to `\n`, `\r\n` and `\r`
-- terminators: split at each terminator, then drop the trailing empty
-- piece that a final terminator would otherwise produce.
def splitLinesAux (cur : List Char) : List Char → List (List Char)
  | [] => [cur.reverse]
  | '\r' :: '\n' :: rest => cur.reverse :: splitLinesAux [] rest
  | '\n' :: rest => cur.reverse :: splitLinesAux [] rest
  | '\r' :: rest => cur.reverse :: splitLinesAux [] rest
  | c :: rest => splitLinesAux (c :: cur) rest

def splitLines (l : List Char) : List (List Char) :=
  match l with
  | [] => []
  | _ :: _ =>
    let ps := splitLinesAux [] l
    match l.getLast? with
    | some c => if c = '\n' ∨ c = '\r' then ps.dropLast else ps
    | none => ps

/-- Python `" / ".join(lines)`. -/
def joinSlash : List (List Char) → List Char
  | [] => []
  | [l] => l
  | l :: rest => l ++ ' ' :: '/' :: ' ' :: joinSlash rest

/-! ## JLPT level regular expressions (`_extract_jlpt_level`) -/

-- Attempt of `(?i)JLPT\b[^0-9A-Za-z]*N?\s*([1-5])\b` at the head of `l`
-- (the leading `\b` is checked by the caller).
def jlptMatch1At (l : List Char) : Option Char :=
  match ciPref ['j', 'l', 'p', 't'] l with
  | none => none
  | some r =>
    let bOk := match r with | [] => false | c :: _ => !isWordChar c
    if bOk then
      let r₂ := r.dropWhile (fun c => !isAsciiAlnum c)
      let r₃ := match r₂ with
        | c :: rr => if lowerChar c = 'n' then rr else r₂
        | [] => r₂
      match r₃.dropWhile isWs with
      | d :: r₅ =>
        if (49 ≤ d.toNat ∧ d.toNat ≤ 53) ∧
            (match r₅ with | [] => true | c :: _ => !isWordChar c) = true then some d
        else none
      | [] => none
    else none

-- Attempt of `(?i)N\s*([1-5])\b` at the head of `l`.
def jlptMatch2At (l : List Char) : Option Char :=
  match l with
  | c :: r =>
    if lowerChar c = 'n' then
      match r.dropWhile isWs with
      | d :: r₃ =>
        if (49 ≤ d.toNat ∧ d.toNat ≤ 53) ∧
            (match r₃ with | [] => true | e :: _ => !isWordChar e) = true then some d
        else none
      | [] => none
    else none
  | [] => none

def boundaryBefore : Option Char → Bool
  | none => true
  | some p => !isWordChar p

/-- Model of `re.search(r"(?i)\bJLPT\b[^0-9A-Za-z]*N?\s*([1-5])\b", ...)`. -/
def jlptSearch1 (prev : Option Char) : List Char → Option Char
  | [] => none
  | c :: rest =>
    match (if boundaryBefore prev then jlptMatch1At (c :: rest) else none) with
    | some d => some d
    | none => jlptSearch1 (some c) rest

/-- Model of `re.search(r"(?i)\bN\s*([1-5])\b", ...)`. -/
def jlptSearch2 (prev : Option Char) : List Char → Option Char
  | [] => none
  | c :: rest =>
    match (if boundaryBefore prev then jlptMatch2At (c :: rest) else none) with
    | some d => some d
    | none => jlptSearch2 (some c) rest

/-! ## Data model

A `Note` is the slice of a host (Anki) note the code consumes: its id, its
note-type id, its field name/value mapping, and its tag list.  A
`NoteModel` is a note-type definition (`col.models`): id, display name and
ordered field names.  `Collection` is the host note store; `nextId` models
the host's assignment of fresh note ids at `add_note` time. -/

structure Note where
  id : Nat
  mid : Nat
  fields : List (String × String)
  tags : List String
deriving DecidableEq, Repr

structure NoteModel where
  mid : Nat
  name : String
  flds : List String
deriving DecidableEq, Repr

structure Collection where
  models : List NoteModel
  notes : List Note
  nextId : Nat
deriving DecidableEq, Repr

/-- A Python mapping value in `tag_transform.mapping`: a single tag or a
list of tags. -/
inductive MappedVal where
  | one (tag : String)
  | many (tags : List String)
deriving DecidableEq, Repr

/-- The `tag_transform` configuration block.  `pfx` models the config key
`prefix` (renamed only because of Lean keyword constraints). -/
structure TagTransformCfg where
  pfx : String
  mapping : List (String × MappedVal)
  drop : List String
deriving DecidableEq, Repr

/-- The `tags` configuration block.  `link_tag_pfx` models the config key
`link_tag_prefix`. -/
structure TagsCfg where
  processed_tag : String
  export_tag : String
  link_tag_pfx : String
deriving DecidableEq, Repr

/-- The raw `values` entry of a filter rule: absent, a list, or a
delimiter-separated string. -/
inductive FilterValuesRaw where
  | noneV
  | listV (l : List String)
  | strV (s : String)
deriving DecidableEq, Repr

structure FilterRule where
  source_field : String
  values : FilterValuesRaw
  mode : String
deriving DecidableEq, Repr

/-- A category configuration entry.  `filter` is `none` for a missing or
empty filter dict (both falsy in Python). -/
structure Category where
  id : String
  name : String
  note_type_id : Nat
  filter : Option FilterRule
  field_map : List (String × String)
deriving DecidableEq, Repr

structure SourceField where
  name : String
  label : String
  enabled : Bool
deriving DecidableEq, Repr

/-- A virtual-field configuration entry; absent string keys are modelled
by `""` (falsy, as in Python).  `vtype` models the config key `type`,
`fallbackField` the key `fallback`. -/
structure VirtualField where
  id : String
  vtype : String
  source : String
  primary : String
  fallbackField : String
  label : String
deriving DecidableEq, Repr

/-- The add-on configuration slice the conversion engine reads.
`source_note_type_id = 0` models an absent/None id (falsy in Python). -/
structure Config where
  source_note_type_id : Nat
  source_note_type_ids : List Nat
  categories : List Category
  source_fields : List SourceField
  virtual_fields : List VirtualField
  tag_transform : TagTransformCfg
  tags : TagsCfg
deriving DecidableEq, Repr

/-- The driver's result record `{"created": ..., "skipped": ...}`. -/
structure ConvertResult where
  created : Nat
  skipped : Nat
deriving DecidableEq, Repr

/-! ## Helpers shared verbatim by `src/conversion.py` and
`src/modules/_yomitran_conversion.py` (the two files contain textually
identical definitions of these functions; they are embedded once). -/

/-- Python `_get_field`: `note[name] if name in note else ""`. -/
def get_field (note : Note) (name : String) : String :=
  match note.fields.lookup name with
  | some v => v
  | none => ""

/-- Python `_get_value` (modules file only): consult the pre-normalised
source-values mapping before falling back to raw field access.  A present
key wins even when its value is empty (`str(source_values.get(name) or "")`). -/
def get_value (source_values : List (String × String)) (note : Note) (name : String) : String :=
  match source_values.lookup name with
  | some v => v
  | none => get_field note name

/-- Python `_get_source_fields`: validated source-field list (entries with a
non-empty stripped name; label defaults to the name; `enabled` defaults
true and is part of the model).  The Python dict input shape yields the
same records as the list shape and is subsumed by it. -/
def get_source_fields (cfg : Config) : List SourceField :=
  cfg.source_fields.filterMap fun f =>
    let name := trimStr f.name
    if name = "" then none
    else some { name := name, label := if f.label = "" then name else f.label, enabled := f.enabled }

/-- Python `_get_virtual_fields`: entries whose stripped id and type are
non-empty (the entries themselves are kept unmodified). -/
def get_virtual_fields (cfg : Config) : List VirtualField :=
  cfg.virtual_fields.filter fun v => trimStr v.id ≠ "" ∧ trimStr v.vtype ≠ ""

/-- Python `_virtual_field_map`: `{str(v.get("id")): v for v in ...}` — later
duplicate ids overwrite earlier ones, hence the last-binding lookup. -/
def virtual_field_map (cfg : Config) : List (String × VirtualField) :=
  (get_virtual_fields cfg).map fun v => (v.id, v)

/-- Python `_normalize_tags`: split on runs of whitespace, comma, semicolon;
drop empty tokens. -/
def normalize_tags (raw : String) : List String :=
  if raw = "" then []
  else (splitRuns [' ', '\t', '\n', '\r', '\x0b', '\x0c', ',', ';'] raw).filter (fun p => p ≠ "")

/-- Python `_strip_noise_symbols`: delete every `drop` entry from the tag, then
strip surrounding whitespace. -/
def strip_noise_symbols (tag : String) (drop : List String) : String :=
  if tag = "" then ""
  else trimStr (drop.foldl (fun t sym => replaceStr t sym "") tag)

/-- Python `_safe_tag_component`: collapse whitespace runs to `_`, then remove
`[`, `]`, `<`, `>`. -/
def safe_tag_component (text : String) : String :=
  if text = "" then ""
  else ⟨(subRunsTok isWs '_' text.data).filter (fun c => !(c = '[' ∨ c = ']' ∨ c = '<' ∨ c = '>'))⟩

/-- The loop body of `_transform_tags` for one raw tag (factored out of
the embedded loop; `pfx` is the sanitised prefix computed before the loop). -/
def transform_tag_step (tcfg : TagTransformCfg) (pfx : String) (out : List String) (tag : String) : List String :=
  let cleaned := strip_noise_symbols tag tcfg.drop
  if cleaned = "" ∨ cleaned ∈ tcfg.drop then out
  else
    match tcfg.mapping.lookup cleaned with
    | some (MappedVal.many ms) => ms.foldl (fun o m => if m ≠ "" then setAdd o m else o) out
    | some (MappedVal.one m) => if m ≠ "" then setAdd out m else out
    | none =>
      let cleaned_safe := safe_tag_component cleaned
      setAdd out (if pfx ≠ "" then pfx ++ cleaned_safe else cleaned_safe)

/-- Python `_transform_tags`: normalise, map, drop and prefix raw tags into a
sorted duplicate-free tag list. -/
def transform_tags (cfg : Config) (raw_tags : List String) : List String :=
  let tcfg := cfg.tag_transform
  let pfx := safe_tag_component tcfg.pfx
  sortDedup (raw_tags.foldl (transform_tag_step tcfg pfx) [])

/-- Python `_escape_note_link_label`: escape `[` and `]` backslash-style. -/
def escape_note_link_label (text : String) : String :=
  if text = "" then ""
  else replaceStr (replaceStr text "[" "\\[") "]" "\\]"

/-- Python `_parse_filter_values`: normalise the raw `values` entry into a list
of stripped, lowercased, non-empty match strings. -/
def parse_filter_values (raw : FilterValuesRaw) : List String :=
  match raw with
  | FilterValuesRaw.noneV => []
  | FilterValuesRaw.listV l =>
    (l.filter (fun x => trimStr x ≠ "")).map (fun x => lowerStr (trimStr x))
  | FilterValuesRaw.strV s =>
    ((splitRuns [';', ',', '\n'] s).filter (fun p => trimStr p ≠ "")).map (fun p => lowerStr (trimStr p))

/-- Python `_ensure_defaults`: overlay the category field map on top of the
built-in defaults for any target field not explicitly mapped.  The
`defaults` parameter is the module-level `DEFAULT_FIELD_MAPPING` of the
respective file (the two files differ in the `LinkedCards` entry). -/
def ensure_defaults (defaults : List (String × String)) (field_map : List (String × String)) (target_model : NoteModel) : List (String × String) :=
  target_model.flds.foldl
    (fun out name =>
      if (out.lookup name).isNone ∧ (defaults.lookup name).isSome then
        out ++ [(name, ((defaults.lookup name).getD ""))]
      else out)
    field_map

/-- Python `_get_target_model`: `None` for a falsy id, else the note-type
definition registered under that id (`col.models.get`). -/
def get_target_model (col : Collection) (model_id : Nat) : Option NoteModel :=
  if model_id = 0 then none
  else col.models.find? (fun m => m.mid == model_id)

/-- The driver's resolution of configured source note types: the singular
`source_note_type_id` if truthy, else the legacy plural list. -/
def resolved_source_ids (cfg : Config) : List Nat :=
  if cfg.source_note_type_id ≠ 0 then [cfg.source_note_type_id]
  else cfg.source_note_type_ids

/-- The host query `note:"<model name>" -tag:"<processed tag>"`: ids of
notes whose note type has the given name and which do not carry the tag. -/
def find_notes (col : Collection) (model_name : String) (processed_tag : String) : List Nat :=
  (col.notes.filter fun n =>
    (match col.models.find? (fun m => m.mid == n.mid) with
     | some m => m.name == model_name
     | none => false) && !(n.tags.contains processed_tag)).map (fun n => n.id)

/-- Python `note.flush()`: write the updated note back into the store. -/
def flush_note (col : Collection) (n : Note) : Collection :=
  { col with notes := col.notes.map (fun m => if m.id == n.id then n else m) }

/-- Python `col.get_note(nid)`. -/
def get_note (col : Collection) (nid : Nat) : Option Note :=
  col.notes.find? (fun n => n.id == nid)

/-! ## Pre-normalisation pipeline (modules file only) -/

/-- Python `_strip_html_text`: br and closing-block tags to newlines, all
remaining tags removed, entities unescaped, lines cleaned and joined
with `" / "`. -/
def strip_html_text (value : String) : String :=
  if value = "" then ""
  else
    let txt := htmlUnescape (stripAllTags (replCloseTags (replBrTags value.data)))
    let lines := (splitLines txt).map (fun ln => trimList (subRunsTok (fun c => c = ' ' ∨ c = '\t') ' ' ln))
    ⟨trimList (joinSlash (lines.filter (fun ln => ln ≠ [])))⟩

/-- Python `_normalize_selection_text`: br tags to newlines, entities
unescaped, per-line whitespace collapsed, lines joined with `" / "`. -/
def normalize_selection_text (value : String) : String :=
  if value = "" then ""
  else
    let txt := htmlUnescape (replBrTags value.data)
    let lines := (splitLines txt).map (fun ln => trimList (subRunsTok isWs ' ' ln))
    ⟨trimList (joinSlash (lines.filter (fun ln => ln ≠ [])))⟩

/-- The boolean flags accumulated by `_mark_from_token` inside
`_normalize_part_of_speech`. -/
structure PosFlags where
  vs : Bool := false
  vk : Bool := false
  vz : Bool := false
  v1 : Bool := false
  v5 : Bool := false
  adjI : Bool := false
  adjNa : Bool := false
  adjNo : Bool := false
  adjPn : Bool := false
  adjT : Bool := false
  adjF : Bool := false
  noun : Bool := false
deriving DecidableEq, Repr

/-- Python `_mark_from_token` for one token (the Python function only ever turns
flags on; folding these records with pointwise `or` models the loop). -/
def mark_from_token (tok : String) : PosFlags :=
  let t := lowerStr (trimStr tok)
  if t = "" then {}
  else
    { vs := t ∈ ["vs", "vs-i", "vs-s", "vs-c"] ∨ strContains t "suru"
      vk := t = "vk" ∨ strContains t "kuru"
      vz := t = "vz" ∨ strContains t "zuru"
      v1 := t ∈ ["v1", "v1-s"] ∨ strContains t "ichidan"
      v5 := strStartsWith t "v5" ∨ strContains t "godan"
      adjI := t ∈ ["adj-i", "adj-ix"] ∨ strContains t "i-adjective"
      adjNa := t = "adj-na" ∨ strContains t "na-adjective"
      adjNo := t ∈ ["adj-no", "no-adj"]
      adjPn := t = "adj-pn" ∨ strContains t "prenominal"
      adjT := t = "adj-t"
      adjF := t = "adj-f"
      noun := t ∈ ["n", "n-adv", "n-t", "n-pref", "n-suf", "n-pr"] ∨ t = "noun" }

def orFlags (a b : PosFlags) : PosFlags :=
  { vs := a.vs ∨ b.vs, vk := a.vk ∨ b.vk, vz := a.vz ∨ b.vz,
    v1 := a.v1 ∨ b.v1, v5 := a.v5 ∨ b.v5, adjI := a.adjI ∨ b.adjI,
    adjNa := a.adjNa ∨ b.adjNa, adjNo := a.adjNo ∨ b.adjNo,
    adjPn := a.adjPn ∨ b.adjPn, adjT := a.adjT ∨ b.adjT,
    adjF := a.adjF ∨ b.adjF, noun := a.noun ∨ b.noun }

/-- Model of `re.fullmatch(r"[a-z0-9][a-z0-9_-]*", t)`. -/
def fullmatchIdent (t : String) : Bool :=
  match t.data with
  | [] => false
  | c :: rest =>
    ((97 ≤ c.toNat ∧ c.toNat ≤ 122) ∨ isAsciiDigit c) &&
      rest.all (fun d => (97 ≤ d.toNat ∧ d.toNat ≤ 122) ∨ isAsciiDigit d ∨ d = '_' ∨ d = '-')

/-- Python `" ".join`. -/
def joinSpace : List String → String
  | [] => ""
  | [s] => s
  | s :: rest => s ++ " " ++ joinSpace rest

/-- Python `_normalize_part_of_speech`: canonicalise a part-of-speech value to
one of the internal category names. -/
def normalize_part_of_speech (value : String) : String :=
  let raw := trimStr value
  if raw = "" then ""
  else
    let tokens := ((splitRuns [',', '\n', ';', '/', '|'] raw).filter
        (fun t => trimStr t ≠ "")).map (fun t => lowerStr (trimStr t))
    let joined := joinSpace tokens
    let flags := tokens.foldl (fun fl t => orFlags fl (mark_from_token t)) {}
    let flags := if tokens = [] then orFlags flags (mark_from_token joined) else flags
    if flags.vs then "suru"
    else if flags.vk then "kuru"
    else if flags.vz then "zuru"
    else if flags.v1 then "ichidan"
    else if flags.v5 then "godan"
    else if flags.adjI then "i"
    else if flags.adjNa then "na"
    else if flags.adjNo then "no"
    else if flags.adjPn then "prenominal"
    else if flags.adjT then "taru"
    else if flags.adjF then "noun-adj"
    else if flags.noun then "noun"
    else
      let raw_lower := lowerStr (trimStr raw)
      if raw_lower ∈ ["unknown", "none", "n/a", "-"] then "unknown"
      else
        match tokens with
        | [tok] => if fullmatchIdent tok then tok else ""
        | _ => ""

/-- Python `_extract_jlpt_level`: strip HTML, then search the two JLPT level
patterns in order. -/
def extract_jlpt_level (raw : String) : String :=
  let text := strip_html_text raw
  if text = "" then ""
  else
    match jlptSearch1 none text.data with
    | some d => ⟨[d]⟩
    | none =>
      match jlptSearch2 none text.data with
      | some d => ⟨[d]⟩
      | none => ""

/-- Python `_build_source_values`: the per-note pre-normalised value mapping
(raw field snapshot, normalised part of speech, cleaned selection text
and glossary). -/
def build_source_values (note : Note) (cfg : Config) : List (String × String) :=
  let values := (get_source_fields cfg).foldl
    (fun vals item => setAssoc vals item.name (get_field note item.name)) []
  let raw_pos := orD (orD ((values.lookup "PartOfSpeech").getD "") (get_field note "PartOfSpeech"))
    (get_field note "POS")
  let pos := normalize_part_of_speech raw_pos
  let values := if pos ≠ "" then setAssoc values "PartOfSpeech" pos else values
  let raw_selection := orD ((values.lookup "SelectionText").getD "") (get_field note "SelectionText")
  let values := if raw_selection ≠ "" then setAssoc values "SelectionText" (normalize_selection_text raw_selection) else values
  let raw_first := orD ((values.lookup "GlossaryFirst").getD "") (get_field note "GlossaryFirst")
  if raw_first ≠ "" then setAssoc values "GlossaryFirst" (strip_html_text raw_first)
  else if ((values.lookup "SelectionText").getD "") = "" then
    let raw_jmdict := orD ((values.lookup "GlossaryJMDictGerHTML").getD "") (get_field note "GlossaryJMDictGerHTML")
    if raw_jmdict ≠ "" then setAssoc values "GlossaryFirst" (strip_html_text raw_jmdict) else values
  else values

/-! ## `src/modules/_yomitran_conversion.py` — the modules driver.

Every function takes the romanizer `hep` where the Python code calls
`to_hepburn` (an external collaborator, see the file header). -/

namespace Modules

/-- Module-level `DEFAULT_FIELD_MAPPING` of the modules file. -/
def DEFAULT_FIELD_MAPPING : List (String × String) :=
  [("Vocab", "value:Vocab"),
   ("VocabReading", "value:VocabReading"),
   ("VocabMeaning", "computed:VocabMeaning"),
   ("VocabHepburn", "computed:VocabHepburn"),
   ("VocabAudio", "value:VocabAudio"),
   ("FamilyID", "computed:FamilyID"),
   ("LinkedCards", "computed:LinkedCards")]

/-- Python `_compute_virtual_value`: dispatch on the virtual field's type. -/
def compute_virtual_value (hep : String → String) (vf : VirtualField) (source_note : Note)
    (cfg : Config) (source_values : List (String × String)) : String :=
  let vtype := trimStr vf.vtype
  if vtype = "copy" then get_value source_values source_note vf.source
  else if vtype = "fallback" then
    let primary := get_value source_values source_note vf.primary
    if primary ≠ "" then primary
    else get_value source_values source_note vf.fallbackField
  else if vtype = "to_hepburn" then hep (get_value source_values source_note vf.source)
  else if vtype = "note_link" then
    let label := escape_note_link_label (if vf.label = "" then "Source" else vf.label)
    let nid := toString source_note.id
    if label ≠ "" then "[" ++ label ++ "|nid" ++ nid ++ "]" else "[|nid" ++ nid ++ "]"
  else if vtype = "to_tag" then get_value source_values source_note vf.source
  else ""

/-- Python `_compute_value`: resolve a mapping key (`ignore`, `value:<field>`,
`computed:<id>` with legacy fallbacks) to a string. -/
def compute_value (hep : String → String) (key : String) (source_note : Note)
    (cfg : Config) (source_values : List (String × String)) : String :=
  if key = "" ∨ key = "ignore" then ""
  else if strStartsWith key "value:" then
    get_value source_values source_note (strAfterColon key)
  else if strStartsWith key "computed:" then
    let vid := strAfterColon key
    match lookupLast vid (virtual_field_map cfg) with
    | some vf => compute_virtual_value hep vf source_note cfg source_values
    | none =>
      if vid = "Vocab" then get_value source_values source_note "VocabFurigana"
      else if vid = "VocabMeaning" then
        let val := get_value source_values source_note "SelectionText"
        if val = "" then get_value source_values source_note "GlossaryFirst" else val
      else if vid = "VocabHepburn" then hep (get_value source_values source_note "VocabReading")
      else if vid = "FamilyID" then get_value source_values source_note "VocabFurigana"
      else if vid = "SourceNoteLink" then
        let label := escape_note_link_label "Source"
        let nid := toString source_note.id
        if label ≠ "" then "[" ++ label ++ "|nid" ++ nid ++ "]" else "[|nid" ++ nid ++ "]"
      else ""
  else ""

/-- Python `_collect_virtual_tags`: the sorted tags produced by `to_tag` virtual
fields. -/
def collect_virtual_tags (hep : String → String) (source_note : Note) (cfg : Config)
    (source_values : List (String × String)) : List String :=
  sortDedup ((get_virtual_fields cfg).foldl
    (fun acc vf =>
      if trimStr vf.vtype ≠ "to_tag" then acc
      else (normalize_tags (compute_virtual_value hep vf source_note cfg source_values)).foldl setAdd acc)
    [])

/-- Python `_collect_tags`: the full tag set of a new note — transformed raw
tags, virtual tags, frequency bucket, JLPT level, export tag, link tag. -/
def collect_tags (hep : String → String) (source_note : Note) (cfg : Config)
    (source_values : List (String × String)) : List String :=
  let tags := (transform_tags cfg (normalize_tags (get_value source_values source_note "Tags"))).foldl setAdd []
  let tags := (collect_virtual_tags hep source_note cfg source_values).foldl setAdd tags
  let freq_jpdb := orD (get_value source_values source_note "FreqJPDB")
    (get_value source_values source_note "FeqJPDB")
  let tags :=
    if freq_jpdb ≠ "" then
      match firstDigitRun freq_jpdb.data with
      | some ds => setAdd tags ("Freq::" ++ ⟨ds⟩)
      | none => tags
    else tags
  let jlpt := get_value source_values source_note "FreqJLPT"
  let tags :=
    if jlpt ≠ "" then
      let level := extract_jlpt_level jlpt
      if level ≠ "" then setAdd tags ("JLPT::N" ++ level) else tags
    else tags
  let tags := setAdd tags cfg.tags.export_tag
  let vocab := orD (get_value source_values source_note "Vocab")
    (get_value source_values source_note "VocabFurigana")
  let vocab_safe := safe_tag_component vocab
  let tags :=
    if vocab_safe ≠ "" then
      setAdd tags (cfg.tags.link_tag_pfx ++ "::" ++ vocab_safe ++ "::" ++ toString source_note.id)
    else tags
  sortDedup tags

/-- Python `_mark_source_note`: append the processed tag and the link tag when
absent, and record a link to the created note in the `LinkedNotes` field
when that field exists and the reference token is new.  Returns the
updated source note (its `flush` is the caller writing it back). -/
def mark_source_note (source_note : Note) (cfg : Config)
    (source_values : List (String × String)) (linked_note : Option Note) : Note :=
  let processed_tag := cfg.tags.processed_tag
  let vocab := orD (get_value source_values source_note "Vocab")
    (get_value source_values source_note "VocabFurigana")
  let vocab_safe := safe_tag_component vocab
  let link_tag :=
    if vocab_safe ≠ "" then
      some (cfg.tags.link_tag_pfx ++ "::" ++ vocab_safe ++ "::" ++ toString source_note.id)
    else none
  let note₁ :=
    if processed_tag ∈ source_note.tags then source_note
    else { source_note with tags := source_note.tags ++ [processed_tag] }
  let note₂ :=
    match link_tag with
    | some lt => if lt ∈ note₁.tags then note₁ else { note₁ with tags := note₁.tags ++ [lt] }
    | none => note₁
  match linked_note with
  | some ln =>
    if (note₂.fields.lookup "LinkedNotes").isSome then
      let label := escape_note_link_label "Created Card"
      let token := "nid" ++ toString ln.id
      let link := if label ≠ "" then "[" ++ label ++ "|" ++ token ++ "]" else "[|" ++ token ++ "]"
      let current := get_field note₂ "LinkedNotes"
      if strContains current token then note₂
      else
        let sep := if trimStr current ≠ "" then "<br>" else ""
        { note₂ with fields := setAssoc note₂.fields "LinkedNotes" (current ++ sep ++ link) }
    else note₂
  | none => note₂

/-- Python `_apply_field_mapping`: fill each target field whose mapping key is
not `ignore`. -/
def apply_field_mapping (hep : String → String) (target_note source_note : Note)
    (source_values : List (String × String)) (field_map : List (String × String))
    (target_model : NoteModel) (cfg : Config) : Note :=
  target_model.flds.foldl
    (fun tgt name =>
      let key := (field_map.lookup name).getD "ignore"
      if key = "ignore" then tgt
      else { tgt with fields := setAssoc tgt.fields name (compute_value hep key source_note cfg source_values) })
    target_note

/-- Python `_matches_filter` (modules variant, consulting the pre-normalised
source values first). -/
def matches_filter (source_values : List (String × String)) (source_note : Note)
    (filter_cfg : Option FilterRule) : Bool :=
  match filter_cfg with
  | none => true
  | some f =>
    let field := trimStr f.source_field
    let values := parse_filter_values f.values
    if field = "" then true
    else if values = [] then true
    else
      let hay := lowerStr (get_value source_values source_note field)
      if hay = "" then false
      else
        let mode := lowerStr (if f.mode = "" then "contains" else f.mode)
        if mode = "equals" then values.any (fun v => hay == v)
        else values.any (fun v => strContains hay v)

/-- Python `_select_category`: first category in configured order whose filter
matches. -/
def select_category (source_values : List (String × String)) (source_note : Note) :
    List Category → Option Category
  | [] => none
  | cat :: rest =>
    if matches_filter source_values source_note cat.filter then some cat
    else select_category source_values source_note rest

/-- The per-note loop body of `convert_notes` (factored out of the
embedded loop; state is `(collection, created, skipped)`). -/
def convert_note_step (hep : String → String) (cfg : Config)
    (st : Collection × Nat × Nat) (nid : Nat) : Collection × Nat × Nat :=
  let (col, created, skipped) := st
  match get_note col nid with
  | none => (col, created, skipped)
  | some source_note =>
    let source_values := build_source_values source_note cfg
    match select_category source_values source_note cfg.categories with
    | none => (col, created, skipped + 1)
    | some category =>
      match get_target_model col category.note_type_id with
      | none => (col, created, skipped + 1)
      | some target_model =>
        let field_map := ensure_defaults DEFAULT_FIELD_MAPPING category.field_map target_model
        let new_note : Note :=
          { id := col.nextId, mid := target_model.mid,
            fields := target_model.flds.map (fun f => (f, "")), tags := [] }
        let new_note := apply_field_mapping hep new_note source_note source_values field_map target_model cfg
        let new_note := { new_note with tags := collect_tags hep source_note cfg source_values }
        let col := { col with notes := col.notes ++ [new_note], nextId := col.nextId + 1 }
        let marked := mark_source_note source_note cfg source_values (some new_note)
        let col := flush_note col marked
        (col, created + 1, skipped)

/-- The per-source-note-type loop body of `convert_notes`: resolve the
note type, query the unprocessed notes, process each. -/
def convert_step (hep : String → String) (cfg : Config)
    (st : Collection × Nat × Nat) (source_model_id : Nat) : Collection × Nat × Nat :=
  match get_target_model st.1 source_model_id with
  | none => st
  | some source_model =>
    let processed_tag := cfg.tags.processed_tag
    let note_ids := find_notes st.1 source_model.name processed_tag
    note_ids.foldl (convert_note_step hep cfg) st

/-- Python `convert_notes` of the modules file: the conversion driver.  The
collection is the explicit model of `mw.col` (the `mw.col`-absent guard of
the Python code returns the same zero record and is outside this model);
`manual` only gates the host tooltip, which has no modelled effect. -/
def convert_notes (hep : String → String) (cfg : Config) (manual : Bool)
    (col : Collection) : ConvertResult × Collection :=
  let source_ids := resolved_source_ids cfg
  if source_ids = [] then ({ created := 0, skipped := 0 }, col)
  else if cfg.categories = [] then ({ created := 0, skipped := 0 }, col)
  else
    let res := source_ids.foldl (convert_step hep cfg) (col, 0, 0)
    ({ created := res.2.1, skipped := res.2.2 }, res.1)

end Modules

/-! ## `src/conversion.py` — the top-level driver (legacy layout).

Identical pipeline shape without the pre-normalised source-values layer;
field access is raw (`_get_field`), and the Python `convert_notes` has no
`return` with a value on any path, modelled by an `Option ConvertResult`
result that is always `none`. -/

namespace Conversion

/-- Module-level `DEFAULT_FIELD_MAPPING` of `src/conversion.py` (note the
different `LinkedCards` entry). -/
def DEFAULT_FIELD_MAPPING : List (String × String) :=
  [("Vocab", "value:Vocab"),
   ("VocabReading", "value:VocabReading"),
   ("VocabMeaning", "computed:VocabMeaning"),
   ("VocabHepburn", "computed:VocabHepburn"),
   ("VocabAudio", "value:VocabAudio"),
   ("FamilyID", "computed:FamilyID"),
   ("LinkedCards", "computed:SourceNoteLink")]

/-- Python `_compute_virtual_value` (raw field access). -/
def compute_virtual_value (hep : String → String) (vf : VirtualField) (source_note : Note)
    (cfg : Config) : String :=
  let vtype := trimStr vf.vtype
  if vtype = "copy" then get_field source_note vf.source
  else if vtype = "fallback" then
    let primary := get_field source_note vf.primary
    if primary ≠ "" then primary
    else get_field source_note vf.fallbackField
  else if vtype = "to_hepburn" then hep (get_field source_note vf.source)
  else if vtype = "note_link" then
    let label := escape_note_link_label (if vf.label = "" then "Source" else vf.label)
    let nid := toString source_note.id
    if label ≠ "" then "[" ++ label ++ "|nid" ++ nid ++ "]" else "[|nid" ++ nid ++ "]"
  else if vtype = "to_tag" then get_field source_note vf.source
  else ""

/-- Python `_compute_value` (raw field access). -/
def compute_value (hep : String → String) (key : String) (source_note : Note)
    (cfg : Config) : String :=
  if key = "" ∨ key = "ignore" then ""
  else if strStartsWith key "value:" then
    get_field source_note (strAfterColon key)
  else if strStartsWith key "computed:" then
    let vid := strAfterColon key
    match lookupLast vid (virtual_field_map cfg) with
    | some vf => compute_virtual_value hep vf source_note cfg
    | none =>
      if vid = "Vocab" then get_field source_note "VocabFurigana"
      else if vid = "VocabMeaning" then
        let val := get_field source_note "SelectionText"
        if val = "" then get_field source_note "GlossaryFirst" else val
      else if vid = "VocabHepburn" then hep (get_field source_note "VocabReading")
      else if vid = "FamilyID" then get_field source_note "VocabFurigana"
      else if vid = "SourceNoteLink" then
        let label := escape_note_link_label "Source"
        let nid := toString source_note.id
        if label ≠ "" then "[" ++ label ++ "|nid" ++ nid ++ "]" else "[|nid" ++ nid ++ "]"
      else ""
  else ""

/-- Python `_collect_virtual_tags` (raw field access). -/
def collect_virtual_tags (hep : String → String) (source_note : Note) (cfg : Config) : List String :=
  sortDedup ((get_virtual_fields cfg).foldl
    (fun acc vf =>
      if trimStr vf.vtype ≠ "to_tag" then acc
      else (normalize_tags (compute_virtual_value hep vf source_note cfg)).foldl setAdd acc)
    [])

/-- Python `_collect_tags` of `src/conversion.py`.  Its JLPT rule is the bare
first-digit search `re.search(r"([1-5])", ...)` on the raw field value. -/
def collect_tags (hep : String → String) (source_note : Note) (cfg : Config) : List String :=
  let tags := (transform_tags cfg (normalize_tags (get_field source_note "Tags"))).foldl setAdd []
  let tags := (collect_virtual_tags hep source_note cfg).foldl setAdd tags
  let freq_jpdb := orD (get_field source_note "FreqJPDB") (get_field source_note "FeqJPDB")
  let tags :=
    if freq_jpdb ≠ "" then
      match firstDigitRun freq_jpdb.data with
      | some ds => setAdd tags ("Freq::" ++ ⟨ds⟩)
      | none => tags
    else tags
  let jlpt := get_field source_note "FreqJLPT"
  let tags :=
    if jlpt ≠ "" then
      match firstDigit15 jlpt.data with
      | some d => setAdd tags ("JLPT::N" ++ ⟨[d]⟩)
      | none => tags
    else tags
  let tags := setAdd tags cfg.tags.export_tag
  let vocab := orD (get_field source_note "Vocab") (get_field source_note "VocabFurigana")
  let vocab_safe := safe_tag_component vocab
  let tags :=
    if vocab_safe ≠ "" then
      setAdd tags (cfg.tags.link_tag_pfx ++ "::" ++ vocab_safe ++ "::" ++ toString source_note.id)
    else tags
  sortDedup tags

/-- Python `_mark_source_note` (raw field access). -/
def mark_source_note (source_note : Note) (cfg : Config) (linked_note : Option Note) : Note :=
  let processed_tag := cfg.tags.processed_tag
  let vocab := orD (get_field source_note "Vocab") (get_field source_note "VocabFurigana")
  let vocab_safe := safe_tag_component vocab
  let link_tag :=
    if vocab_safe ≠ "" then
      some (cfg.tags.link_tag_pfx ++ "::" ++ vocab_safe ++ "::" ++ toString source_note.id)
    else none
  let note₁ :=
    if processed_tag ∈ source_note.tags then source_note
    else { source_note with tags := source_note.tags ++ [processed_tag] }
  let note₂ :=
    match link_tag with
    | some lt => if lt ∈ note₁.tags then note₁ else { note₁ with tags := note₁.tags ++ [lt] }
    | none => note₁
  match linked_note with
  | some ln =>
    if (note₂.fields.lookup "LinkedNotes").isSome then
      let label := escape_note_link_label "Created Card"
      let token := "nid" ++ toString ln.id
      let link := if label ≠ "" then "[" ++ label ++ "|" ++ token ++ "]" else "[|" ++ token ++ "]"
      let current := get_field note₂ "LinkedNotes"
      if strContains current token then note₂
      else
        let sep := if trimStr current ≠ "" then "<br>" else ""
        { note₂ with fields := setAssoc note₂.fields "LinkedNotes" (current ++ sep ++ link) }
    else note₂
  | none => note₂

/-- Python `_apply_field_mapping` (raw field access). -/
def apply_field_mapping (hep : String → String) (target_note source_note : Note)
    (field_map : List (String × String)) (target_model : NoteModel) (cfg : Config) : Note :=
  target_model.flds.foldl
    (fun tgt name =>
      let key := (field_map.lookup name).getD "ignore"
      if key = "ignore" then tgt
      else { tgt with fields := setAssoc tgt.fields name (compute_value hep key source_note cfg) })
    target_note

/-- Python `_matches_filter` of `src/conversion.py` (raw field access). -/
def matches_filter (source_note : Note) (filter_cfg : Option FilterRule) : Bool :=
  match filter_cfg with
  | none => true
  | some f =>
    let field := trimStr f.source_field
    let values := parse_filter_values f.values
    if field = "" then true
    else if values = [] then true
    else
      let hay := lowerStr (get_field source_note field)
      if hay = "" then false
      else
        let mode := lowerStr (if f.mode = "" then "contains" else f.mode)
        if mode = "equals" then values.any (fun v => hay == v)
        else values.any (fun v => strContains hay v)

/-- Python `_select_category` of `src/conversion.py`. -/
def select_category (source_note : Note) : List Category → Option Category
  | [] => none
  | cat :: rest =>
    if matches_filter source_note cat.filter then some cat
    else select_category source_note rest

/-- The per-note loop body of the legacy `convert_notes`. -/
def convert_note_step (hep : String → String) (cfg : Config)
    (st : Collection × Nat × Nat) (nid : Nat) : Collection × Nat × Nat :=
  let (col, created, skipped) := st
  match get_note col nid with
  | none => (col, created, skipped)
  | some source_note =>
    match select_category source_note cfg.categories with
    | none => (col, created, skipped + 1)
    | some category =>
      match get_target_model col category.note_type_id with
      | none => (col, created, skipped + 1)
      | some target_model =>
        let field_map := ensure_defaults DEFAULT_FIELD_MAPPING category.field_map target_model
        let new_note : Note :=
          { id := col.nextId, mid := target_model.mid,
            fields := target_model.flds.map (fun f => (f, "")), tags := [] }
        let new_note := apply_field_mapping hep new_note source_note field_map target_model cfg
        let new_note := { new_note with tags := collect_tags hep source_note cfg }
        let col := { col with notes := col.notes ++ [new_note], nextId := col.nextId + 1 }
        let marked := mark_source_note source_note cfg (some new_note)
        let col := flush_note col marked
        (col, created + 1, skipped)

/-- The per-source-note-type loop body of the legacy `convert_notes`. -/
def convert_step (hep : String → String) (cfg : Config)
    (st : Collection × Nat × Nat) (source_model_id : Nat) : Collection × Nat × Nat :=
  match get_target_model st.1 source_model_id with
  | none => st
  | some source_model =>
    let processed_tag := cfg.tags.processed_tag
    let note_ids := find_notes st.1 source_model.name processed_tag
    note_ids.foldl (convert_note_step hep cfg) st

/-- Python `convert_notes` of `src/conversion.py`.  The Python function never
returns a value (every `return` is bare and the body falls off the end),
so its result component is always `none`; the collection component is the
store after the run. -/
def convert_notes (hep : String → String) (cfg : Config) (manual : Bool)
    (col : Collection) : Option ConvertResult × Collection :=
  let source_ids := resolved_source_ids cfg
  if source_ids = [] then (none, col)
  else if cfg.categories = [] then (none, col)
  else
    let res := source_ids.foldl (convert_step hep cfg) (col, 0, 0)
    (none, res.1)

end Conversion

/-! ## `run_conversion` of `src/__init__.py` — the re-entrancy guard. -/

/-- Observable outcome of one `run_conversion` call: skipped by the
guard, completed normally, or failed (the exception is caught and shown
as a tooltip). -/
inductive RunOutcome where
  | noop
  | completed
  | failed
deriving DecidableEq, Repr

/-- Python `run_conversion(manual)`: if the module flag `_RUNNING` is set,
return immediately; otherwise set it, run `convert_notes` (whose possible
exception `convert_raises` is caught), and clear the flag in the
`finally` block.  Result: the outcome and the flag after the call. -/
def run_conversion (running : Bool) (convert_raises : Bool) : RunOutcome × Bool :=
  if running then (RunOutcome.noop, running)
  else ((if convert_raises then RunOutcome.failed else RunOutcome.completed), false)

/-! ## Order and sorted-set lemmas -/

theorem str_ext {s t : String} (h : s.data = t.data) : s = t :=
  congrArg String.mk h

theorem lexLt_irrefl (l : List Char) : lexLt l l = false := by
  induction l with
  | nil => rfl
  | cons c rest ih => simp [lexLt, ih]

theorem lexLt_trans {a b c : List Char} (hab : lexLt a b = true)
    (hbc : lexLt b c = true) : lexLt a c = true := by
  induction a generalizing b c with
  | nil =>
    cases c with
    | nil =>
      cases b with
      | nil => simpa [lexLt] using hab
      | cons y ys => simpa [lexLt] using hbc
    | cons z zs => simp [lexLt]
  | cons x xs ih =>
    cases b with
    | nil => simp [lexLt] at hab
    | cons y ys =>
      cases c with
      | nil => simp [lexLt] at hbc
      | cons z zs =>
        simp only [lexLt] at hab hbc ⊢
        rcases Nat.lt_trichotomy x.toNat y.toNat with h₁ | h₁ | h₁
        · rcases Nat.lt_trichotomy y.toNat z.toNat with h₂ | h₂ | h₂
          · simp [Nat.lt_trans h₁ h₂]
          · simp [h₂ ▸ h₁]
          · rw [if_neg (Nat.lt_asymm h₂), if_pos h₂] at hbc
            exact absurd hbc (by simp)
        · rcases Nat.lt_trichotomy y.toNat z.toNat with h₂ | h₂ | h₂
          · simp [h₁ ▸ h₂]
          · have hxz : ¬x.toNat < z.toNat := by omega
            have hzx : ¬z.toNat < x.toNat := by omega
            rw [if_neg (by omega : ¬x.toNat < y.toNat), if_neg (by omega : ¬y.toNat < x.toNat)] at hab
            rw [if_neg (by omega : ¬y.toNat < z.toNat), if_neg (by omega : ¬z.toNat < y.toNat)] at hbc
            rw [if_neg hxz, if_neg hzx]
            exact ih hab hbc
          · rw [if_neg (Nat.lt_asymm h₂), if_pos h₂] at hbc
            exact absurd hbc (by simp)
        · rw [if_neg (Nat.lt_asymm h₁), if_pos h₁] at hab
          exact absurd hab (by simp)

theorem lexLt_total_eq {a b : List Char} (hab : lexLt a b = false)
    (hba : lexLt b a = false) : a = b := by
  induction a generalizing b with
  | nil =>
    cases b with
    | nil => rfl
    | cons y ys => simp [lexLt] at hab
  | cons x xs ih =>
    cases b with
    | nil => simp [lexLt] at hba
    | cons y ys =>
      simp only [lexLt] at hab hba
      rcases Nat.lt_trichotomy x.toNat y.toNat with h₁ | h₁ | h₁
      · rw [if_pos h₁] at hab; exact absurd hab (by simp)
      · rw [if_neg (by omega : ¬x.toNat < y.toNat), if_neg (by omega : ¬y.toNat < x.toNat)] at hab
        rw [if_neg (by omega : ¬y.toNat < x.toNat), if_neg (by omega : ¬x.toNat < y.toNat)] at hba
        have hx : x = y := Char.ext (UInt32.ext h₁)
        rw [hx, ih hab hba]
      · rw [if_pos h₁] at hba; exact absurd hba (by simp)

theorem strLt_irrefl (s : String) : strLt s s = false := lexLt_irrefl s.data

theorem strLt_trans {a b c : String} (hab : strLt a b = true)
    (hbc : strLt b c = true) : strLt a c = true := lexLt_trans hab hbc

theorem strLt_of_not_of_ne {a b : String} (hab : strLt a b = false) (hne : a ≠ b) :
    strLt b a = true := by
  cases hba : strLt b a with
  | true => rfl
  | false => exact absurd (str_ext (lexLt_total_eq hab hba)) hne

theorem strLt_ne {a b : String} (h : strLt a b = true) : a ≠ b := by
  rintro rfl
  rw [strLt_irrefl] at h
  exact absurd h (by simp)

/-- The sortedness predicate of the tag outputs: strictly increasing in
the code-point lexicographic order (the order of Python `sorted`). -/
def SortedTags (l : List String) : Prop := l.Pairwise (fun a b => strLt a b = true)

theorem mem_insertTag {x s : String} {l : List String} :
    x ∈ insertTag s l ↔ x = s ∨ x ∈ l := by
  induction l with
  | nil => simp [insertTag]
  | cons t rest ih =>
    simp only [insertTag]
    split
    · exact List.mem_cons
    · split
      · next hst =>
        subst hst
        simp only [List.mem_cons]
        tauto
      · simp only [List.mem_cons, ih]
        tauto

theorem insertTag_sorted {s : String} {l : List String} (h : SortedTags l) :
    SortedTags (insertTag s l) := by
  induction l with
  | nil => simp [insertTag, SortedTags]
  | cons t rest ih =>
    rcases List.pairwise_cons.mp h with ⟨ht, hrest⟩
    simp only [insertTag]
    split
    · next hst =>
      refine List.pairwise_cons.mpr ⟨?_, h⟩
      intro x hx
      rcases List.mem_cons.mp hx with rfl | hx
      · exact hst
      · exact strLt_trans hst (ht x hx)
    · split
      · exact h
      · next hst hne =>
        refine List.pairwise_cons.mpr ⟨?_, ih hrest⟩
        intro x hx
        rcases mem_insertTag.mp hx with rfl | hx
        · exact strLt_of_not_of_ne (by simpa using hst) hne
        · exact ht x hx

theorem sortDedup_sorted (l : List String) : SortedTags (sortDedup l) := by
  induction l with
  | nil => simp [sortDedup, SortedTags]
  | cons s rest ih => exact insertTag_sorted ih

theorem sortDedup_nodup (l : List String) : (sortDedup l).Nodup :=
  (sortDedup_sorted l).imp fun h => strLt_ne h

theorem mem_sortDedup {x : String} {l : List String} :
    x ∈ sortDedup l ↔ x ∈ l := by
  induction l with
  | nil => simp [sortDedup]
  | cons s rest ih =>
    show x ∈ insertTag s (sortDedup rest) ↔ _
    rw [mem_insertTag]
    simp [ih]

theorem sorted_mem_ext {l₁ l₂ : List String} (h₁ : SortedTags l₁) (h₂ : SortedTags l₂)
    (hm : ∀ x, x ∈ l₁ ↔ x ∈ l₂) : l₁ = l₂ := by
  induction l₁ generalizing l₂ with
  | nil =>
    cases l₂ with
    | nil => rfl
    | cons y ys => exact absurd ((hm y).mpr (List.mem_cons_self y ys)) (by simp)
  | cons x xs ih =>
    cases l₂ with
    | nil => exact absurd ((hm x).mp (List.mem_cons_self x xs)) (by simp)
    | cons y ys =>
      rcases List.pairwise_cons.mp h₁ with ⟨hx, hxs⟩
      rcases List.pairwise_cons.mp h₂ with ⟨hy, hys⟩
      have hxy : x = y := by
        rcases List.mem_cons.mp ((hm x).mp (List.mem_cons_self x xs)) with rfl | hxin
        · rfl
        rcases List.mem_cons.mp ((hm y).mpr (List.mem_cons_self y ys)) with rfl | hyin
        · rfl
        exact absurd (strLt_trans (hy x hxin) (hx y hyin)) (by simp [strLt_irrefl])
      subst hxy
      have htails : ∀ z, z ∈ xs ↔ z ∈ ys := by
        intro z
        constructor
        · intro hz
          rcases List.mem_cons.mp ((hm z).mp (List.mem_cons.mpr (Or.inr hz))) with rfl | hzy
          · exact absurd (hx z hz) (by simp [strLt_irrefl])
          · exact hzy
        · intro hz
          rcases List.mem_cons.mp ((hm z).mpr (List.mem_cons.mpr (Or.inr hz))) with rfl | hzx
          · exact absurd (hy z hz) (by simp [strLt_irrefl])
          · exact hzx
      rw [ih hxs hys htails]

theorem mem_setAdd {x s : String} {l : List String} :
    x ∈ setAdd l s ↔ x ∈ l ∨ x = s := by
  simp only [setAdd]
  split
  · next h =>
    constructor
    · exact fun hx => Or.inl hx
    · rintro (hx | rfl)
      · exact hx
      · exact h
  · simp [List.mem_append]

theorem mem_foldl_setAdd {x : String} {l init : List String} :
    x ∈ l.foldl setAdd init ↔ x ∈ init ∨ x ∈ l := by
  induction l generalizing init with
  | nil => simp
  | cons s rest ih =>
    simp only [List.foldl_cons, ih, mem_setAdd, List.mem_cons]
    tauto

theorem sortDedup_mem_congr {l₁ l₂ : List String} (h : ∀ x, x ∈ l₁ ↔ x ∈ l₂) :
    sortDedup l₁ = sortDedup l₂ :=
  sorted_mem_ext (sortDedup_sorted l₁) (sortDedup_sorted l₂)
    (fun x => by rw [mem_sortDedup, mem_sortDedup]; exact h x)

/-! ## Claim theorems -/

/-- C7: the tag output of the Tag Transformer and of both drivers' full
tag collection is always a strictly (lexicographically) sorted,
duplicate-free sequence, for every input, including inputs with repeated
identical tags. -/
theorem c7_tag_output_sorted_dupfree :
    ∀ (cfg : Config) (raw_tags : List String) (hep : String → String) (note : Note)
      (sv : List (String × String)),
      (SortedTags (transform_tags cfg raw_tags) ∧ (transform_tags cfg raw_tags).Nodup) ∧
      (SortedTags (Modules.collect_tags hep note cfg sv) ∧ (Modules.collect_tags hep note cfg sv).Nodup) ∧
      (SortedTags (Conversion.collect_tags hep note cfg) ∧ (Conversion.collect_tags hep note cfg).Nodup) := by
  intro cfg raws hep note sv
  exact ⟨⟨sortDedup_sorted _, sortDedup_nodup _⟩,
    ⟨sortDedup_sorted _, sortDedup_nodup _⟩,
    ⟨sortDedup_sorted _, sortDedup_nodup _⟩⟩

/-- C9: the module-level re-entrancy flag makes a call during a running
conversion a silent no-op that leaves the flag untouched, and every call
entered with the flag clear attempts the conversion and ends — normal
return or exception — with the flag cleared again; hence any sequence of
top-level triggers starting from a clear flag ends with a clear flag. -/
theorem c9_reentrancy_guard :
    (∀ r, run_conversion true r = (RunOutcome.noop, true)) ∧
    (∀ r, (run_conversion false r).1 ≠ RunOutcome.noop ∧ (run_conversion false r).2 = false) ∧
    (∀ rs : List Bool, rs.foldl (fun fl r => (run_conversion fl r).2) false = false) := by
  refine ⟨fun r => rfl, fun r => ⟨?_, rfl⟩, fun rs => ?_⟩
  · cases r <;> simp [run_conversion]
  · induction rs with
    | nil => rfl
    | cons r rest ih => simpa [run_conversion] using ih

/-- A minimal configuration used to instantiate theorems about components
that only read part of the configuration. -/
def baseConfig : Config :=
  { source_note_type_id := 0, source_note_type_ids := [], categories := [],
    source_fields := [], virtual_fields := [],
    tag_transform := { pfx := "", mapping := [], drop := [] },
    tags := { processed_tag := "_intern::yomitan::processed",
              export_tag := "_intern::yomitan_export",
              link_tag_pfx := "_intern::yomitan" } }

/-- Variant of `baseConfig` with a given `tag_transform` block. -/
def ttConfig (tt : TagTransformCfg) : Config := { baseConfig with tag_transform := tt }

theorem transform_tags_nil (cfg : Config) : transform_tags cfg [] = [] := rfl

/-- A raw tag whose cleaned form is empty or in the drop list contributes
nothing to `_transform_tags`. -/
theorem transform_tags_cons_discard (cfg : Config) (token : String) (rest : List String)
    (h : strip_noise_symbols token cfg.tag_transform.drop = "" ∨
      strip_noise_symbols token cfg.tag_transform.drop ∈ cfg.tag_transform.drop) :
    transform_tags cfg (token :: rest) = transform_tags cfg rest := by
  simp only [transform_tags, List.foldl_cons]
  have hstep : transform_tag_step cfg.tag_transform (safe_tag_component cfg.tag_transform.pfx) [] token = [] := by
    simp only [transform_tag_step]
    rw [if_pos h]
  rw [hstep]

/-- C5: in step 2 of the Tag Transformer a token is discarded exactly when
stripping the configured drop substrings (and surrounding whitespace)
leaves an empty string or a member of the drop list; with `drop = ["X"]`,
`"fooXbar"` is cleaned to `"foobar"` and kept, while `"X"` is discarded. -/
theorem c5_drop_step :
    (∀ (cfg : Config) (token : String) (rest : List String),
        strip_noise_symbols token cfg.tag_transform.drop = "" ∨
          strip_noise_symbols token cfg.tag_transform.drop ∈ cfg.tag_transform.drop →
        transform_tags cfg (token :: rest) = transform_tags cfg rest) ∧
    (∀ (drop : List String) (token : String),
        transform_tags (ttConfig ⟨"", [], drop⟩) [token] = [] ↔
          (strip_noise_symbols token drop = "" ∨ strip_noise_symbols token drop ∈ drop)) ∧
    strip_noise_symbols "fooXbar" ["X"] = "foobar" ∧
    transform_tags (ttConfig ⟨"", [], ["X"]⟩) ["fooXbar"] = ["foobar"] ∧
    transform_tags (ttConfig ⟨"", [], ["X"]⟩) ["X"] = [] := by
  refine ⟨transform_tags_cons_discard, fun drop token => ⟨?_, ?_⟩, by decide, by decide, by decide⟩
  · intro hempty
    by_cases h : strip_noise_symbols token drop = "" ∨ strip_noise_symbols token drop ∈ drop
    · exact h
    · exfalso
      have hc : transform_tags (ttConfig ⟨"", [], drop⟩) [token] =
          [safe_tag_component (strip_noise_symbols token drop)] := by
        simp only [transform_tags, List.foldl_cons, List.foldl_nil, transform_tag_step, ttConfig]
        rw [if_neg h]
        rfl
      rw [hc] at hempty
      exact absurd hempty (by simp)
  · intro h
    rw [transform_tags_cons_discard _ _ _ h]
    rfl

theorem mem_foldl_setAdd_truthy {x : String} {ms init : List String} :
    x ∈ ms.foldl (fun o m => if m ≠ "" then setAdd o m else o) init ↔
      x ∈ init ∨ (x ∈ ms ∧ x ≠ "") := by
  induction ms generalizing init with
  | nil => simp
  | cons m rest ih =>
    simp only [List.foldl_cons]
    by_cases hm : m = ""
    · subst hm
      rw [if_neg (by simp)]
      rw [ih]
      constructor
      · rintro (hx | ⟨hx, hne⟩)
        · exact Or.inl hx
        · exact Or.inr ⟨List.mem_cons.mpr (Or.inr hx), hne⟩
      · rintro (hx | ⟨hx, hne⟩)
        · exact Or.inl hx
        · rcases List.mem_cons.mp hx with rfl | hx
          · exact absurd rfl hne
          · exact Or.inr ⟨hx, hne⟩
    · rw [if_pos hm]
      rw [ih, mem_setAdd]
      constructor
      · rintro ((hx | rfl) | ⟨hx, hne⟩)
        · exact Or.inl hx
        · exact Or.inr ⟨List.mem_cons_self _ _, hm⟩
        · exact Or.inr ⟨List.mem_cons.mpr (Or.inr hx), hne⟩
      · rintro (hx | ⟨hx, hne⟩)
        · exact Or.inl (Or.inl hx)
        · rcases List.mem_cons.mp hx with rfl | hx
          · exact Or.inl (Or.inr rfl)
          · exact Or.inr ⟨hx, hne⟩

/-- Configuration exercising both the mapped and the unmapped branch. -/
def c6_cfg : Config := ttConfig ⟨"pre [x]", [("k", MappedVal.many ["a", "", "b"])], []⟩

/-- C6: a cleaned token that is a key of the mapping table emits exactly
the mapped truthy values and nothing else; an unmapped token is sanitised
(whitespace runs to `_`, brackets and angle brackets removed) and emitted
prefixed with the (equally sanitised) configured prefix. -/
theorem c6_mapping_and_sanitize :
    (∀ (cfg : Config) (token : String),
        ¬(strip_noise_symbols token cfg.tag_transform.drop = "" ∨
            strip_noise_symbols token cfg.tag_transform.drop ∈ cfg.tag_transform.drop) →
        (∀ ms, cfg.tag_transform.mapping.lookup (strip_noise_symbols token cfg.tag_transform.drop) =
              some (MappedVal.many ms) →
            transform_tags cfg [token] = sortDedup (ms.filter (fun m => m ≠ ""))) ∧
        (∀ m, cfg.tag_transform.mapping.lookup (strip_noise_symbols token cfg.tag_transform.drop) =
              some (MappedVal.one m) →
            transform_tags cfg [token] = sortDedup (if m = "" then [] else [m])) ∧
        (cfg.tag_transform.mapping.lookup (strip_noise_symbols token cfg.tag_transform.drop) = none →
            transform_tags cfg [token] =
              [if safe_tag_component cfg.tag_transform.pfx ≠ ""
               then safe_tag_component cfg.tag_transform.pfx ++
                 safe_tag_component (strip_noise_symbols token cfg.tag_transform.drop)
               else safe_tag_component (strip_noise_symbols token cfg.tag_transform.drop)])) ∧
    transform_tags c6_cfg ["k", "a b<c>"] = ["a", "b", "pre_xa_bc"] := by
  constructor
  · intro cfg token h
    refine ⟨?_, ?_, ?_⟩
    · intro ms hms
      simp only [transform_tags, List.foldl_cons, List.foldl_nil, transform_tag_step]
      rw [if_neg h, hms]
      refine sortDedup_mem_congr fun x => ?_
      rw [mem_foldl_setAdd_truthy]
      simp [List.mem_filter]
    · intro m hm
      simp only [transform_tags, List.foldl_cons, List.foldl_nil, transform_tag_step]
      rw [if_neg h, hm]
      show sortDedup (if m ≠ "" then setAdd [] m else []) = sortDedup (if m = "" then [] else [m])
      by_cases hme : m = ""
      · subst hme
        rw [if_neg (by simp), if_pos rfl]
      · rw [if_pos hme, if_neg hme]
        rfl
    · intro hnone
      simp only [transform_tags, List.foldl_cons, List.foldl_nil, transform_tag_step]
      rw [if_neg h, hnone]
      rfl
  · decide

/-- The `note_link` branch always produces the bracketed form, also when
the escaped label is empty. -/
theorem note_link_format_eq (lbl nid : String) :
    (if escape_note_link_label lbl ≠ ""
     then "[" ++ escape_note_link_label lbl ++ "|nid" ++ nid ++ "]"
     else "[|nid" ++ nid ++ "]") =
      "[" ++ escape_note_link_label lbl ++ "|nid" ++ nid ++ "]" := by
  split
  · rfl
  · next hlab =>
    rw [of_not_not hlab]
    apply str_ext
    simp [String.data_append]

/-- The virtual field and source note of the concrete `note_link`
example. -/
def c8_vf : VirtualField :=
  { id := "link", vtype := "note_link", source := "", primary := "", fallbackField := "", label := "A[1]" }

def c8_note : Note := { id := 5, mid := 1, fields := [], tags := [] }

/-- C8: a `note_link` virtual field always resolves to
`"[<escaped label>|nid<source note id>]"`, with the label defaulting to
`"Source"` and `[`, `]` escaped to `\[`, `\]`; in particular label
`"A[1]"` yields `"[A\[1\]|nid5]"` for note id 5. -/
theorem c8_note_link_format :
    (∀ (hep : String → String) (vf : VirtualField) (note : Note) (cfg : Config)
        (sv : List (String × String)),
        trimStr vf.vtype = "note_link" →
        Modules.compute_virtual_value hep vf note cfg sv =
          "[" ++ escape_note_link_label (if vf.label = "" then "Source" else vf.label) ++
            "|nid" ++ toString note.id ++ "]" ∧
        Conversion.compute_virtual_value hep vf note cfg =
          "[" ++ escape_note_link_label (if vf.label = "" then "Source" else vf.label) ++
            "|nid" ++ toString note.id ++ "]") ∧
    escape_note_link_label "A[1]" = "A\\[1\\]" ∧
    Modules.compute_virtual_value (fun s => s) c8_vf c8_note baseConfig [] = "[A\\[1\\]|nid5]" := by
  refine ⟨?_, by decide, by decide⟩
  intro hep vf note cfg sv h
  constructor
  · simp only [Modules.compute_virtual_value]
    simp only [h]
    rw [if_neg (show ¬("note_link" : String) = "copy" by decide),
      if_neg (show ¬("note_link" : String) = "fallback" by decide),
      if_neg (show ¬("note_link" : String) = "to_hepburn" by decide)]
    simp only [if_true]
    exact note_link_format_eq _ _
  · simp only [Conversion.compute_virtual_value]
    simp only [h]
    rw [if_neg (show ¬("note_link" : String) = "copy" by decide),
      if_neg (show ¬("note_link" : String) = "fallback" by decide),
      if_neg (show ¬("note_link" : String) = "to_hepburn" by decide)]
    simp only [if_true]
    exact note_link_format_eq _ _

/-! ## The Category Selector: specification-side predicate and lemmas -/

theorem lowerStr_ne_empty {s : String} (h : s ≠ "") : lowerStr s ≠ "" := by
  intro he
  apply h
  apply str_ext
  have hd : (lowerStr s).data = [] := congrArg String.data he
  simpa [lowerStr] using hd

theorem parse_values_ne_empty {v : String} {raw : FilterValuesRaw}
    (h : v ∈ parse_filter_values raw) : v ≠ "" := by
  cases raw with
  | noneV => simp [parse_filter_values] at h
  | listV l =>
    simp only [parse_filter_values, List.mem_map, List.mem_filter] at h
    obtain ⟨x, ⟨-, hx⟩, rfl⟩ := h
    exact lowerStr_ne_empty (by simpa using hx)
  | strV s =>
    simp only [parse_filter_values, List.mem_map, List.mem_filter] at h
    obtain ⟨x, ⟨-, hx⟩, rfl⟩ := h
    exact lowerStr_ne_empty (by simpa using hx)

theorem strContains_empty_hay {v : String} (h : v ≠ "") : strContains "" v = false := by
  cases hv : v.data with
  | nil => exact absurd (str_ext (by simp [hv])) h
  | cons c rest => simp [strContains, occursIn, prefCh, hv]

/-- The filter-match condition in the words of the specification: an
absent rule, an empty configured field or empty configured values match
unconditionally; otherwise the lowercased value at the configured field
must equal (in `equals` mode) or contain (in `contains` mode, the
default) some configured value. -/
def filter_matches_spec (sv : List (String × String)) (note : Note)
    (filt : Option FilterRule) : Prop :=
  match filt with
  | none => True
  | some f =>
    trimStr f.source_field = "" ∨ parse_filter_values f.values = [] ∨
      (if lowerStr (if f.mode = "" then "contains" else f.mode) = "equals"
       then ∃ v ∈ parse_filter_values f.values,
         lowerStr (get_value sv note (trimStr f.source_field)) = v
       else ∃ v ∈ parse_filter_values f.values,
         strContains (lowerStr (get_value sv note (trimStr f.source_field))) v = true)

theorem matches_filter_spec_iff (sv : List (String × String)) (note : Note)
    (filt : Option FilterRule) :
    Modules.matches_filter sv note filt = true ↔ filter_matches_spec sv note filt := by
  cases filt with
  | none => simp [Modules.matches_filter, filter_matches_spec]
  | some f =>
    simp only [filter_matches_spec]
    by_cases hf : trimStr f.source_field = ""
    · simp [Modules.matches_filter, hf]
    · by_cases hv : parse_filter_values f.values = []
      · simp [Modules.matches_filter, hf, hv]
      · by_cases hhay : lowerStr (get_value sv note (trimStr f.source_field)) = ""
        · have lhs_false : Modules.matches_filter sv note (some f) = false := by
            simp only [Modules.matches_filter]
            rw [if_neg hf, if_neg hv, if_pos hhay]
          rw [lhs_false]
          simp only [Bool.false_eq_true, false_iff]
          rintro (h | h | h)
          · exact hf h
          · exact hv h
          · by_cases hmode : lowerStr (if f.mode = "" then "contains" else f.mode) = "equals"
            · rw [if_pos hmode] at h
              obtain ⟨v, hvm, hveq⟩ := h
              exact parse_values_ne_empty hvm (hveq.symm.trans hhay)
            · rw [if_neg hmode] at h
              obtain ⟨v, hvm, hvc⟩ := h
              rw [hhay, strContains_empty_hay (parse_values_ne_empty hvm)] at hvc
              exact absurd hvc (by simp)
        · simp only [Modules.matches_filter]
          rw [if_neg hf, if_neg hv, if_neg hhay]
          simp only [hf, hv, false_or]
          by_cases hmode : lowerStr (if f.mode = "" then "contains" else f.mode) = "equals"
          · rw [if_pos hmode, if_pos hmode]
            simp [List.any_eq_true, beq_iff_eq]
          · rw [if_neg hmode, if_neg hmode]
            simp [List.any_eq_true]

theorem select_category_eq_some_iff (sv : List (String × String)) (note : Note)
    (cats : List Category) (c : Category) :
    Modules.select_category sv note cats = some c ↔
      ∃ pre post, cats = pre ++ c :: post ∧
        Modules.matches_filter sv note c.filter = true ∧
        ∀ d ∈ pre, Modules.matches_filter sv note d.filter = false := by
  induction cats with
  | nil =>
    simp only [Modules.select_category]
    constructor
    · intro h; cases h
    · rintro ⟨pre, post, hcats, -, -⟩
      cases pre <;> simp at hcats
  | cons d rest ih =>
    simp only [Modules.select_category]
    by_cases hd : Modules.matches_filter sv note d.filter = true
    · rw [if_pos hd]
      constructor
      · intro h
        injection h with h
        subst h
        exact ⟨[], rest, rfl, hd, by simp⟩
      · rintro ⟨pre, post, hcats, hc, hpre⟩
        cases pre with
        | nil =>
          simp only [List.nil_append, List.cons.injEq] at hcats
          rw [hcats.1]
        | cons e pre₂ =>
          simp only [List.cons_append, List.cons.injEq] at hcats
          have he := hpre e (List.mem_cons_self _ _)
          rw [← hcats.1] at he
          rw [he] at hd
          exact absurd hd (by simp)
    · rw [if_neg hd]
      have hd₂ : Modules.matches_filter sv note d.filter = false := by
        simpa using hd
      rw [ih]
      constructor
      · rintro ⟨pre, post, hcats, hc, hpre⟩
        refine ⟨d :: pre, post, by rw [hcats, List.cons_append], hc, ?_⟩
        intro e he
        rcases List.mem_cons.mp he with rfl | he
        · exact hd₂
        · exact hpre e he
      · rintro ⟨pre, post, hcats, hc, hpre⟩
        cases pre with
        | nil =>
          simp only [List.nil_append, List.cons.injEq] at hcats
          rw [hcats.1] at hd
          exact absurd hc hd
        | cons e pre₂ =>
          simp only [List.cons_append, List.cons.injEq] at hcats
          exact ⟨pre₂, post, hcats.2, hc, fun x hx => hpre x (List.mem_cons.mpr (Or.inr hx))⟩

theorem select_category_eq_none_iff (sv : List (String × String)) (note : Note)
    (cats : List Category) :
    Modules.select_category sv note cats = none ↔
      ∀ d ∈ cats, Modules.matches_filter sv note d.filter = false := by
  induction cats with
  | nil => simp [Modules.select_category]
  | cons d rest ih =>
    simp only [Modules.select_category]
    by_cases hd : Modules.matches_filter sv note d.filter = true
    · rw [if_pos hd]
      simp [hd]
    · rw [if_neg hd]
      have hd₂ : Modules.matches_filter sv note d.filter = false := by
        simpa using hd
      rw [ih]
      simp [hd₂]

theorem matches_filter_legacy_eq (note : Note) (filt : Option FilterRule) :
    Conversion.matches_filter note filt = Modules.matches_filter [] note filt := rfl

theorem select_category_legacy_eq (note : Note) (cats : List Category) :
    Conversion.select_category note cats = Modules.select_category [] note cats := by
  induction cats with
  | nil => rfl
  | cons d rest ih =>
    simp only [Conversion.select_category, Modules.select_category,
      matches_filter_legacy_eq, ih]

/-- C2: the Category Selector returns the first category in list order
whose filter matches and `none` when no filter matches; a rule with no
configured field or no configured values matches every note, and
otherwise matching lowercases the note's value at the configured field
and requires case-insensitive equality with some configured value
(`equals` mode) or substring containment of some configured value
(`contains` mode, the default).  The legacy selector of
`src/conversion.py` is the instance with an empty pre-normalised value
mapping. -/
theorem c2_first_match_selector :
    ∀ (sv : List (String × String)) (note : Note) (cats : List Category)
      (filt : Option FilterRule),
      (Modules.matches_filter sv note filt = true ↔ filter_matches_spec sv note filt) ∧
      (∀ c, Modules.select_category sv note cats = some c ↔
        ∃ pre post, cats = pre ++ c :: post ∧
          Modules.matches_filter sv note c.filter = true ∧
          ∀ d ∈ pre, Modules.matches_filter sv note d.filter = false) ∧
      (Modules.select_category sv note cats = none ↔
        ∀ d ∈ cats, Modules.matches_filter sv note d.filter = false) ∧
      Conversion.matches_filter note filt = Modules.matches_filter [] note filt ∧
      Conversion.select_category note cats = Modules.select_category [] note cats :=
  fun sv note cats filt =>
    ⟨matches_filter_spec_iff sv note filt,
     fun c => select_category_eq_some_iff sv note cats c,
     select_category_eq_none_iff sv note cats,
     matches_filter_legacy_eq note filt,
     select_category_legacy_eq note cats⟩

/-! ## The Value Resolver on `computed:` keys -/

theorem prefCh_self_append (p l : List Char) : prefCh p (p ++ l) = true := by
  induction p with
  | nil => rfl
  | cons c rest ih => simp [prefCh, ih]

theorem afterColonCh_computed (v : List Char) :
    afterColonCh ("computed:".data ++ v) = v := by
  show afterColonCh ('c' :: 'o' :: 'm' :: 'p' :: 'u' :: 't' :: 'e' :: 'd' :: ':' :: v) = v
  simp [afterColonCh]

theorem lookupLast_eq_none {α : Type} {k : String} {l : List (String × α)}
    (h : ∀ p ∈ l, p.1 ≠ k) : lookupLast k l = none := by
  have aux : ∀ (l₂ : List (String × α)) (acc : Option α),
      (∀ p ∈ l₂, p.1 ≠ k) →
      l₂.foldl (fun acc p => if p.1 = k then some p.2 else acc) acc = acc := by
    intro l₂
    induction l₂ with
    | nil => intro acc _; rfl
    | cons p rest ih =>
      intro acc hh
      simp only [List.foldl_cons]
      rw [if_neg (hh p (List.mem_cons_self _ _))]
      exact ih acc fun q hq => hh q (List.mem_cons.mpr (Or.inr hq))
  exact aux l none h

theorem virtual_field_map_lookup_none {vid : String} {cfg : Config}
    (h : vid ∉ (get_virtual_fields cfg).map (fun v => v.id)) :
    lookupLast vid (virtual_field_map cfg) = none := by
  apply lookupLast_eq_none
  intro p hp
  simp only [virtual_field_map, List.mem_map] at hp
  obtain ⟨v, hv, rfl⟩ := hp
  intro he
  exact h (List.mem_map.mpr ⟨v, hv, he⟩)

theorem computed_key_facts (vid : String) :
    ¬("computed:" ++ vid = "" ∨ "computed:" ++ vid = "ignore") ∧
    strStartsWith ("computed:" ++ vid) "value:" = false ∧
    strStartsWith ("computed:" ++ vid) "computed:" = true ∧
    strAfterColon ("computed:" ++ vid) = vid := by
  have hdata : ("computed:" ++ vid).data = "computed:".data ++ vid.data :=
    String.data_append _ _
  refine ⟨?_, ?_, ?_, ?_⟩
  · rintro (he | he)
    · have := congrArg String.data he
      rw [hdata] at this
      simp at this
    · have := congrArg String.data he
      rw [hdata] at this
      simp at this
  · show prefCh "value:".data ("computed:" ++ vid).data = false
    rw [hdata]
    rfl
  · show prefCh "computed:".data ("computed:" ++ vid).data = true
    rw [hdata]
    exact prefCh_self_append _ _
  · apply str_ext
    show afterColonCh ("computed:" ++ vid).data = vid.data
    rw [hdata]
    exact afterColonCh_computed vid.data

/-- C4 (amended): a key `computed:<id>` whose id names no configured
virtual field *and* is none of the five hardcoded legacy ids resolves
silently to the empty string, in both resolver implementations. -/
theorem c4_unknown_computed_empty :
    ∀ (hep : String → String) (vid : String) (note : Note) (cfg : Config)
      (sv : List (String × String)),
      vid ∉ (get_virtual_fields cfg).map (fun v => v.id) →
      vid ∉ (["Vocab", "VocabMeaning", "VocabHepburn", "FamilyID", "SourceNoteLink"] : List String) →
      Modules.compute_value hep ("computed:" ++ vid) note cfg sv = "" ∧
      Conversion.compute_value hep ("computed:" ++ vid) note cfg = "" := by
  intro hep vid note cfg sv h₁ h₂
  obtain ⟨hk, hval, hcomp, hafter⟩ := computed_key_facts vid
  simp only [List.mem_cons, List.mem_singleton, not_or] at h₂
  obtain ⟨n₁, n₂, n₃, n₄, n₅, -⟩ := h₂
  have hlook := virtual_field_map_lookup_none h₁
  constructor
  · simp only [Modules.compute_value]
    rw [if_neg hk, if_neg (by simp [hval]), if_pos hcomp, hafter, hlook]
    rw [if_neg n₁, if_neg n₂, if_neg n₃, if_neg n₄, if_neg n₅]
  · simp only [Conversion.compute_value]
    rw [if_neg hk, if_neg (by simp [hval]), if_pos hcomp, hafter, hlook]
    rw [if_neg n₁, if_neg n₂, if_neg n₃, if_neg n₄, if_neg n₅]

/-- A source note for the legacy-fallback counterexample. -/
def c4_note : Note := { id := 7, mid := 1, fields := [("VocabFurigana", "x")], tags := [] }

/-- C4 counterexample: with no virtual fields configured at all, the id
`SourceNoteLink` is not the id of any configured virtual field, yet the
resolver returns the non-empty legacy note link, not `""`. -/
theorem c4_counterexample_legacy_fallback :
    "SourceNoteLink" ∉ (get_virtual_fields baseConfig).map (fun v => v.id) ∧
    Modules.compute_value (fun s => s) "computed:SourceNoteLink" c4_note baseConfig [] = "[Source|nid7]" ∧
    ¬ Modules.compute_value (fun s => s) "computed:SourceNoteLink" c4_note baseConfig [] = "" := by
  refine ⟨by decide, by decide, by decide⟩

/-- Witness for `c4_unknown_computed_empty` at a concrete input. -/
theorem c4_unknown_computed_empty_witness :
    Modules.compute_value (fun s => s) ("computed:" ++ "Zzz") c4_note baseConfig [] = "" ∧
    Conversion.compute_value (fun s => s) ("computed:" ++ "Zzz") c4_note baseConfig = "" :=
  c4_unknown_computed_empty (fun s => s) "Zzz" c4_note baseConfig [] (by decide) (by decide)

/-! ## The Conversion Driver: abort paths and idempotence -/

/-- C3 (amended): the modules driver always returns a
`{created, skipped}` record, and with no configured source note types or
no configured categories it returns zero/zero with the note store
untouched. -/
theorem c3_abort_returns_zero :
    ∀ (hep : String → String) (cfg : Config) (manual : Bool) (col : Collection),
      resolved_source_ids cfg = [] ∨ cfg.categories = [] →
      Modules.convert_notes hep cfg manual col = ({ created := 0, skipped := 0 }, col) := by
  intro hep cfg manual col h
  simp only [Modules.convert_notes]
  rcases h with h | h
  · rw [if_pos h]
  · by_cases hs : resolved_source_ids cfg = []
    · rw [if_pos hs]
    · rw [if_neg hs, if_pos h]

/-- An abort configuration (no source note types) and an empty store. -/
def c3_cfg : Config := baseConfig

def c3_col : Collection := { models := [], notes := [], nextId := 1 }

/-- C3 counterexample: the driver of `src/conversion.py` — one of the two
implementations the claim covers — returns no record at all (Python
`None`) where the claim requires `{created: 0, skipped: 0}`. -/
theorem c3_counterexample_legacy_returns_none :
    (Conversion.convert_notes (fun s => s) c3_cfg true c3_col).1 = none ∧
    ¬ (Conversion.convert_notes (fun s => s) c3_cfg true c3_col).1 =
        some { created := 0, skipped := 0 } := by
  refine ⟨by decide, by decide⟩

/-- Witness for `c3_abort_returns_zero` at a concrete input. -/
theorem c3_abort_returns_zero_witness :
    Modules.convert_notes (fun s => s) c3_cfg true c3_col =
      ({ created := 0, skipped := 0 }, c3_col) :=
  c3_abort_returns_zero (fun s => s) c3_cfg true c3_col (Or.inl (by decide))

/-- Does the note match the name-based query of some configured (and
resolvable) source note type? -/
def isSourceQueryMatch (cfg : Config) (col : Collection) (n : Note) : Bool :=
  (resolved_source_ids cfg).any fun sid =>
    match get_target_model col sid with
    | some m =>
      match col.models.find? (fun mm => mm.mid == n.mid) with
      | some nm => nm.name == m.name
      | none => false
    | none => false

theorem find_notes_empty_of_tagged {cfg : Config} {col : Collection}
    (h : ∀ n ∈ col.notes, isSourceQueryMatch cfg col n = true → cfg.tags.processed_tag ∈ n.tags)
    {sid : Nat} (hsid : sid ∈ resolved_source_ids cfg) {m : NoteModel}
    (hm : get_target_model col sid = some m) :
    find_notes col m.name cfg.tags.processed_tag = [] := by
  simp only [find_notes]
  rw [List.filter_eq_nil_iff.mpr ?_]
  · rfl
  · intro n hn
    by_cases hmatch : (match col.models.find? (fun mm => mm.mid == n.mid) with
        | some nm => nm.name == m.name
        | none => false) = true
    · have hq : isSourceQueryMatch cfg col n = true := by
        simp only [isSourceQueryMatch, List.any_eq_true]
        refine ⟨sid, hsid, ?_⟩
        rw [hm]
        exact hmatch
      have htag := h n hn hq
      have hcont : n.tags.contains cfg.tags.processed_tag = true := List.elem_iff.mpr htag
      simp [hcont]
      exact fun _ => htag
    · have hA : (match col.models.find? (fun mm => mm.mid == n.mid) with
          | some nm => nm.name == m.name
          | none => false) = false := by simpa using hmatch
      simp [hA]

theorem convert_step_const {hep : String → String} {cfg : Config} {col : Collection}
    (h : ∀ n ∈ col.notes, isSourceQueryMatch cfg col n = true → cfg.tags.processed_tag ∈ n.tags)
    {sid : Nat} (hsid : sid ∈ resolved_source_ids cfg) (c s : Nat) :
    Modules.convert_step hep cfg (col, c, s) sid = (col, c, s) := by
  simp only [Modules.convert_step]
  cases hm : get_target_model col sid with
  | none => rfl
  | some m =>
    show List.foldl (Modules.convert_note_step hep cfg) (col, c, s)
      (find_notes col m.name cfg.tags.processed_tag) = (col, c, s)
    rw [find_notes_empty_of_tagged h hsid hm]
    rfl

theorem convert_fold_const {hep : String → String} {cfg : Config} {col : Collection}
    (h : ∀ n ∈ col.notes, isSourceQueryMatch cfg col n = true → cfg.tags.processed_tag ∈ n.tags) :
    ∀ (ids : List Nat), (∀ sid ∈ ids, sid ∈ resolved_source_ids cfg) → ∀ (c s : Nat),
      ids.foldl (Modules.convert_step hep cfg) (col, c, s) = (col, c, s) := by
  intro ids
  induction ids with
  | nil => intro _ c s; rfl
  | cons sid rest ih =>
    intro hids c s
    simp only [List.foldl_cons]
    rw [convert_step_const h (hids sid (List.mem_cons_self _ _)) c s]
    exact ih (fun q hq => hids q (List.mem_cons.mpr (Or.inr hq))) c s

/-- C1: if every source note of the configured source note types already
carries the configured processed tag (as `_mark_source_note` guarantees
at the end of a run), a further call to the driver creates zero notes —
the query excludes notes carrying the processed tag. -/
theorem c1_rerun_creates_nothing :
    ∀ (hep : String → String) (cfg : Config) (manual : Bool) (col : Collection),
      (∀ n ∈ col.notes, isSourceQueryMatch cfg col n = true →
        cfg.tags.processed_tag ∈ n.tags) →
      (Modules.convert_notes hep cfg manual col).1.created = 0 ∧
      (Modules.convert_notes hep cfg manual col).2 = col := by
  intro hep cfg manual col h
  simp only [Modules.convert_notes]
  by_cases hs : resolved_source_ids cfg = []
  · rw [if_pos hs]
    exact ⟨rfl, rfl⟩
  · rw [if_neg hs]
    by_cases hc : cfg.categories = []
    · rw [if_pos hc]
      exact ⟨rfl, rfl⟩
    · rw [if_neg hc]
      rw [convert_fold_const h (resolved_source_ids cfg) (fun sid hsid => hsid) 0 0]
      exact ⟨rfl, rfl⟩

/-- A store with one already-processed source note, for the C1 witness. -/
def c1_col : Collection :=
  { models := [{ mid := 1, name := "Yomitan Import", flds := ["Vocab", "Tags"] }],
    notes := [{ id := 11, mid := 1, fields := [("Vocab", "x")],
                tags := ["_intern::yomitan::processed"] }],
    nextId := 100 }

def c1_cfg : Config :=
  { baseConfig with
    source_note_type_id := 1,
    categories := [{ id := "other", name := "Other", note_type_id := 2,
                     filter := none, field_map := [] }] }

/-- Witness for `c1_rerun_creates_nothing` at a concrete input. -/
theorem c1_rerun_creates_nothing_witness :
    (Modules.convert_notes (fun s => s) c1_cfg false c1_col).1.created = 0 ∧
    (Modules.convert_notes (fun s => s) c1_cfg false c1_col).2 = c1_col :=
  c1_rerun_creates_nothing (fun s => s) c1_cfg false c1_col (by decide)

/-! ## The two `_collect_tags` implementations (refinement comparison) -/

/-- The JLPT tag contribution of `src/conversion.py`: first digit 1-5
anywhere in the raw field value. -/
def jlpt_tag_legacy (v : String) : Option String :=
  if v = "" then none
  else
    match firstDigit15 v.data with
    | some d => some ("JLPT::N" ++ ⟨[d]⟩)
    | none => none

/-- The JLPT tag contribution of the modules file: HTML-stripped text
matched against the contextual JLPT patterns. -/
def jlpt_tag_modules (v : String) : Option String :=
  if v = "" then none
  else
    let level := extract_jlpt_level v
    if level = "" then none else some ("JLPT::N" ++ level)

theorem get_value_nil (note : Note) (name : String) :
    get_value [] note name = get_field note name := rfl

theorem collect_virtual_tags_legacy_eq (hep : String → String) (note : Note) (cfg : Config) :
    Conversion.collect_virtual_tags hep note cfg = Modules.collect_virtual_tags hep note cfg [] := rfl

/-- C10 (amended): the two embedded `_collect_tags` implementations,
the modules one invoked with an empty pre-normalised source-values
mapping, return equal sorted tag lists on every note on which their two
JLPT extraction rules produce the same contribution — in particular on
every note whose `FreqJLPT` value is empty.  (They differ exactly in that
rule, see the counterexample.) -/
theorem c10_collect_tags_agree :
    ∀ (hep : String → String) (cfg : Config) (note : Note),
      jlpt_tag_legacy (get_field note "FreqJLPT") = jlpt_tag_modules (get_field note "FreqJLPT") →
      Conversion.collect_tags hep note cfg = Modules.collect_tags hep note cfg [] := by
  intro hep cfg note h
  have hbranch : ∀ (tags : List String),
      (if get_field note "FreqJLPT" ≠ "" then
        match firstDigit15 (get_field note "FreqJLPT").data with
        | some d => setAdd tags ("JLPT::N" ++ ⟨[d]⟩)
        | none => tags
       else tags) =
      (if get_field note "FreqJLPT" ≠ "" then
        if extract_jlpt_level (get_field note "FreqJLPT") ≠ "" then
          setAdd tags ("JLPT::N" ++ extract_jlpt_level (get_field note "FreqJLPT"))
        else tags
       else tags) := by
    intro tags
    by_cases hv : get_field note "FreqJLPT" = ""
    · rw [if_neg (not_not_intro hv), if_neg (not_not_intro hv)]
    · simp only [jlpt_tag_legacy, jlpt_tag_modules, if_neg hv] at h
      rw [if_pos hv, if_pos hv]
      cases hd : firstDigit15 (get_field note "FreqJLPT").data with
      | some d =>
        rw [hd] at h
        by_cases hl : extract_jlpt_level (get_field note "FreqJLPT") = ""
        · rw [if_pos hl] at h
          cases h
        · rw [if_neg hl] at h
          injection h with h
          rw [if_pos hl, ← h]
      | none =>
        rw [hd] at h
        by_cases hl : extract_jlpt_level (get_field note "FreqJLPT") = ""
        · rw [if_neg (not_not_intro hl)]
        · rw [if_neg hl] at h
          cases h
  simp only [Conversion.collect_tags, Modules.collect_tags, get_value_nil,
    collect_virtual_tags_legacy_eq]
  rw [hbranch]

/-- A note on which the two JLPT rules disagree: the value `"3"` has a
bare digit but no `JLPT`/`N` context. -/
def c10_note : Note := { id := 3, mid := 1, fields := [("FreqJLPT", "3")], tags := [] }

/-- C10 counterexample: on `FreqJLPT = "3"` the legacy collector emits
`JLPT::N3` while the modules collector does not, so the two tag lists
differ. -/
theorem c10_counterexample_jlpt_divergence :
    Conversion.collect_tags (fun s => s) c10_note baseConfig =
      ["JLPT::N3", "_intern::yomitan_export"] ∧
    Modules.collect_tags (fun s => s) c10_note baseConfig [] =
      ["_intern::yomitan_export"] ∧
    ¬ Conversion.collect_tags (fun s => s) c10_note baseConfig =
        Modules.collect_tags (fun s => s) c10_note baseConfig [] := by
  refine ⟨by decide, by decide, by decide⟩

/-- A note with an empty `FreqJLPT`, for the C10 witness. -/
def c10_empty_note : Note :=
  { id := 4, mid := 1, fields := [("Vocab", "x"), ("Tags", "a b")], tags := [] }

/-- Witness for `c10_collect_tags_agree` at a concrete input. -/
theorem c10_collect_tags_agree_witness :
    Conversion.collect_tags (fun s => s) c10_empty_note baseConfig =
      Modules.collect_tags (fun s => s) c10_empty_note baseConfig [] :=
  c10_collect_tags_agree (fun s => s) baseConfig c10_empty_note (by decide)

/-- Witness for `c5_drop_step` at a concrete input. -/
theorem c5_drop_step_witness :
    transform_tags (ttConfig ⟨"", [], ["X"]⟩) ["X", "abc"] =
      transform_tags (ttConfig ⟨"", [], ["X"]⟩) ["abc"] :=
  c5_drop_step.1 (ttConfig ⟨"", [], ["X"]⟩) "X" ["abc"] (by decide)

/-- Witness for `c6_mapping_and_sanitize` at a concrete input. -/
theorem c6_mapping_and_sanitize_witness :
    transform_tags c6_cfg ["k"] = sortDedup (["a", "", "b"].filter (fun m => m ≠ "")) :=
  (c6_mapping_and_sanitize.1 c6_cfg "k" (by decide)).1 ["a", "", "b"] (by decide)

/-- Witness for `c8_note_link_format` at a concrete input. -/
theorem c8_note_link_format_witness :
    Modules.compute_virtual_value (fun s => s) c8_vf c8_note baseConfig [] =
      "[" ++ escape_note_link_label (if c8_vf.label = "" then "Source" else c8_vf.label) ++
        "|nid" ++ toString c8_note.id ++ "]" ∧
    Conversion.compute_virtual_value (fun s => s) c8_vf c8_note baseConfig =
      "[" ++ escape_note_link_label (if c8_vf.label = "" then "Source" else c8_vf.label) ++
        "|nid" ++ toString c8_note.id ++ "]" :=
  c8_note_link_format.1 (fun s => s) c8_vf c8_note baseConfig [] (by decide)
